import Mathlib

/-!
Shallow embedding of the crosswords-maker core (grid placement engine and
validation/scoring engine) and verification of the specification claims.

Sources embedded:
- src/js/helpers/gridHelper.js      (GridHelper: canPlaceWord, placeWord,
  removeWord, hasWordsOnGrid, findPossibleIntersections, autoPlaceWords)
- src/js/validators/gridValidator.js (GridValidator: all checks,
  calculateOverallScore, simpleHash, hashGrid, hashWords, generateCacheKey,
  validateGrid with its validation cache)
- src/unnamed/part_000              (WordValidator.calculateWordScore)
- src/unnamed/part_001              (WordHelper.calculateWordDifficulty)

Modelling conventions:
- JS numbers are modelled as Int / Nat / Rat; 32-bit coercions of the string
  hash are explicit (`toInt32`).  Division by zero yields 0 in the Rat model
  (the JS sources guard every division that matters with explicit ternaries,
  which are mirrored as `if`s).
- A grid cell keeps exactly the fields read or written by the embedded code:
  letter, number, blocked, wordIds, directions, isStart, isEnd,
  isIntersection.  `letter` is `Option Char` (JS empty string = `none`),
  `number` is `Option Int` (JS null/undefined = `none`).
- Mutation is modelled by explicit state passing: mutators return the new
  grid (and the validator returns its new cache).
- JS exceptions are modelled with `Except`: an out-of-range cell access
  (`undefined.field` in JS) produces `.error`.  The validator wraps its
  checks in a catch, mirrored by `computeReport`.
- Report message strings are replaced by a `Finding` datatype carrying the
  data that parametrises each message; list order matches JS push order.
-/

namespace Crosswords

/-! ## Grid model (gridHelper.js: cells and basic accessors) -/

/-- One grid cell, with the fields the embedded code reads and writes
(`createEmptyCell` also creates presentation-only fields such as
`userInput`, `highlighted`, `selected`; they are never touched by the
embedded operations and are omitted). -/
structure Cell where
  letter : Option Char
  number : Option Int
  blocked : Bool
  wordIds : List String
  directions : List String
  isStart : Bool
  isEnd : Bool
  isIntersection : Bool
deriving DecidableEq, Repr

/-- `createEmptyCell`: the pristine cell state. -/
def emptyCell : Cell :=
  { letter := none, number := none, blocked := false, wordIds := [],
    directions := [], isStart := false, isEnd := false, isIntersection := false }

abbrev Grid := List (List Cell)

/-- Point update of a list (JS in-place assignment through an index). -/
def listModify : List α → Nat → (α → α) → List α
  | [], _, _ => []
  | a :: l, 0, f => f a :: l
  | a :: l, n + 1, f => a :: listModify l n f

/-- `grid[r][c]` at natural indices, `none` when JS would yield `undefined`. -/
def cellGetN (g : Grid) (r c : Nat) : Option Cell :=
  (g.get? r).bind fun row => row.get? c

/-- `grid[r][c]` at (possibly negative) JS indices. -/
def cellGet (g : Grid) (r c : Int) : Option Cell :=
  if r < 0 ∨ c < 0 then none else cellGetN g r.toNat c.toNat

/-- In-place update of `grid[r][c]` (no-op outside the grid). -/
def gridModify (g : Grid) (r c : Int) (f : Cell → Cell) : Grid :=
  if r < 0 ∨ c < 0 then g
  else listModify g r.toNat fun row => listModify row c.toNat f

/-- `grid[0].length` as used throughout the JS source (`grid[0]?.length || 0`). -/
def gridWidth (g : Grid) : Nat := (g.headD []).length

/-- `GridHelper.isValidPosition`. -/
def isValidPosition (g : Grid) (r c : Int) : Bool :=
  decide (0 ≤ r) && decide (r < (g.length : Int)) &&
  decide (0 ≤ c) && decide (c < (gridWidth g : Int))

/-- Rectangular grids: every row has the length of row 0.  The JS code
indexes `grid[row][col]` after checking `col` against `grid[0].length`, so
its behaviour is only exception-free on rectangular grids; theorems about
the placement engine assume this. -/
def Rect (g : Grid) : Prop := ∀ row ∈ g, row.length = gridWidth g

instance (g : Grid) : Decidable (Rect g) := by
  unfold Rect; infer_instance

/-- `GridHelper.hasWordsOnGrid`: some cell has a letter and a word id. -/
def hasWordsOnGrid (g : Grid) : Bool :=
  g.any fun row => row.any fun cell => cell.letter.isSome && !cell.wordIds.isEmpty

/-! ## Placement legality (`GridHelper.canPlaceWord`) -/

/-- The distinct rejection reasons (`result.reason` strings). -/
inductive PlaceReason where
  | accepted
  | tooShort
  | badDirection
  | startOutOfBounds
  | wordOutOfBounds (i : Nat)
  | blockedCell (r c : Int)
  | fullDuplicate
  | letterConflicts (n : Nat)
  | isolated
deriving DecidableEq, Repr

structure PConflict where
  row : Int
  col : Int
  existing : Char
  required : Char
deriving DecidableEq, Repr

structure PIntersection where
  row : Int
  col : Int
  letter : Char
deriving DecidableEq, Repr

structure CanPlaceResult where
  canPlace : Bool
  conflicts : List PConflict
  intersections : List PIntersection
  reason : PlaceReason
deriving DecidableEq, Repr

/-- Cell coordinates of letter `i` of a word anchored at `(sr, sc)`:
`row = direction === 'vertical' ? startRow + i : startRow` and symmetrically
for the column. -/
def posOf (sr sc : Int) (dir : String) (i : Nat) : Int × Int :=
  (if dir = "vertical" then sr + i else sr,
   if dir = "horizontal" then sc + i else sc)

/-- The per-letter loop of `canPlaceWord`: walks the word's cells, exits
early on an out-of-bounds or blocked cell (keeping the conflicts and
intersections pushed so far, as the JS result object does), and otherwise
accumulates letter conflicts and intersections. -/
def canPlaceScan (g : Grid) (sr sc : Int) (dir : String) :
    List (Nat × Char) → List PConflict → List PIntersection →
    Except (PlaceReason × List PConflict × List PIntersection)
      (List PConflict × List PIntersection)
  | [], conf, ints => .ok (conf, ints)
  | (i, ch) :: rest, conf, ints =>
    let r := (posOf sr sc dir i).1
    let c := (posOf sr sc dir i).2
    if isValidPosition g r c = false then
      .error (.wordOutOfBounds i, conf, ints)
    else
      let cell := (cellGet g r c).getD emptyCell
      if cell.blocked then
        .error (.blockedCell r c, conf, ints)
      else
        let conf2 := match cell.letter with
          | some l => if l ≠ ch then conf ++ [⟨r, c, l, ch⟩] else conf
          | none => conf
        let ints2 := match cell.letter with
          | some l => if l = ch then ints ++ [⟨r, c, ch⟩] else ints
          | none => ints
        canPlaceScan g sr sc dir rest conf2 ints2

/-- `GridHelper.canPlaceWord`. -/
def canPlaceWord (g : Grid) (word : String) (startRow startCol : Int)
    (direction : String) : CanPlaceResult :=
  if word.length < 2 then
    { canPlace := false, conflicts := [], intersections := [], reason := .tooShort }
  else if ¬(direction = "horizontal" ∨ direction = "vertical") then
    { canPlace := false, conflicts := [], intersections := [], reason := .badDirection }
  else if isValidPosition g startRow startCol = false then
    { canPlace := false, conflicts := [], intersections := [], reason := .startOutOfBounds }
  else
    match canPlaceScan g startRow startCol direction word.data.enum [] [] with
    | .error (why, conf, ints) =>
      { canPlace := false, conflicts := conf, intersections := ints, reason := why }
    | .ok (conf, ints) =>
      if ints.length = word.length then
        ⟨false, conf, ints, .fullDuplicate⟩
      else if 0 < conf.length then
        ⟨false, conf, ints, .letterConflicts conf.length⟩
      else if hasWordsOnGrid g ∧ ints.length = 0 then
        ⟨false, conf, ints, .isolated⟩
      else
        ⟨true, conf, ints, .accepted⟩

/-! ## Word data and placement mutators -/

/-- A word object as used by the helper and the validator (`wordData` /
entries of the words map). -/
structure WordData where
  id : String
  word : String
  clue : String
  direction : String
  startRow : Int
  startCol : Int
  number : Option Int
  difficulty : Option ℚ
deriving DecidableEq, Repr

/-- The body of one iteration of the placement loop of `placeWord`:
write the letter, append the word id and the direction (no duplicates),
mark intersection/start/end, assign the number on the first cell. -/
def placeCellStep (wd : WordData) (i : Nat) (ch : Char) (cell : Cell) : Cell :=
  let ids := if cell.wordIds.contains wd.id then cell.wordIds
             else cell.wordIds ++ [wd.id]
  let dirs := if cell.directions.contains wd.direction then cell.directions
              else cell.directions ++ [wd.direction]
  { cell with
    letter := some ch
    wordIds := ids
    directions := dirs
    isIntersection := if 1 < ids.length then true else cell.isIntersection
    isStart := if i = 0 then true else cell.isStart
    number := if i = 0 then wd.number else cell.number
    isEnd := if i = wd.word.length - 1 then true else cell.isEnd }

/-- The letter loop of `placeWord`, processing offsets in ascending order. -/
def placeCells (wd : WordData) : Grid → List (Nat × Char) → Grid
  | g, [] => g
  | g, (i, ch) :: rest =>
    placeCells wd
      (gridModify g (posOf wd.startRow wd.startCol wd.direction i).1
        (posOf wd.startRow wd.startCol wd.direction i).2 (placeCellStep wd i ch))
      rest

/-- `GridHelper.placeWord`: re-checks legality and mutates on success only.
Returns the JS boolean result together with the grid state after the call. -/
def placeWord (g : Grid) (wd : WordData) : Bool × Grid :=
  let chk := canPlaceWord g wd.word wd.startRow wd.startCol wd.direction
  if chk.canPlace then (true, placeCells wd g wd.word.data.enum)
  else (false, g)

/-- The per-cell body of `removeWord`: drop the id; if no ids remain clear
the cell, otherwise recompute `isIntersection`. -/
def removeCellWord (wordId : String) (cell : Cell) : Cell :=
  if cell.wordIds.contains wordId then
    let ids := cell.wordIds.erase wordId
    if ids.length = 0 then
      { cell with
          wordIds := ids, letter := none, number := none,
          directions := [], isStart := false, isEnd := false,
          isIntersection := false }
    else
      { cell with wordIds := ids, isIntersection := decide (1 < ids.length) }
  else cell

/-- `GridHelper.removeWord`: scans every cell; returns the `removed` flag
and the grid state after the call. -/
def removeWord (g : Grid) (wordId : String) : Bool × Grid :=
  (g.any fun row => row.any fun cell => cell.wordIds.contains wordId,
   g.map fun row => row.map (removeCellWord wordId))

/-! Small sanity grids for witnesses and counterexamples. -/

/-- A `w × h` grid of empty cells (the body of `createEmptyGrid`). -/
def buildGrid (w h : Nat) : Grid :=
  List.replicate h (List.replicate w emptyCell)

/-! ## Auto placement (`GridHelper.autoPlaceWords`) -/

/-- One intersection-based placement candidate produced by
`findPossibleIntersections`. -/
structure AutoCand where
  startRow : Int
  startCol : Int
  direction : String
  intersectionLetter : Char
  posI : Nat
  posJ : Nat
deriving DecidableEq, Repr

/-- `GridHelper.findPossibleIntersections`: every pair `(i, j)` with
`newWord[i] === existingWord.word[j]`, converted to a perpendicular anchor,
in the JS nested-loop order (`i` outer, `j` inner). -/
def findPossibleIntersections (newWord : String) (existingWord : WordData) :
    List AutoCand :=
  (List.range newWord.length).flatMap fun i =>
    (List.range existingWord.word.length).filterMap fun j =>
      match newWord.data.get? i, existingWord.word.data.get? j with
      | some a, some b =>
        if a = b then
          if existingWord.direction = "horizontal" then
            some ⟨existingWord.startRow - i, existingWord.startCol + j,
                  "vertical", a, i, j⟩
          else
            some ⟨existingWord.startRow + j, existingWord.startCol - i,
                  "horizontal", a, i, j⟩
        else none
      | _, _ => none

/-- Stable insertion into a list sorted by descending weight: `x` goes in
front of the first element whose weight is `≤` its own.  Together with
`sortDescBy` this reproduces the (stable, per ES2019) result of
`Array.prototype.sort` under the comparator `(a, b) => wt(b) - wt(a)`. -/
def insertDescBy (wt : α → Nat) (x : α) : List α → List α
  | [] => [x]
  | y :: ys => if wt y ≤ wt x then x :: y :: ys else y :: insertDescBy wt x ys

/-- Stable sort by descending weight. -/
def sortDescBy (wt : α → Nat) : List α → List α
  | [] => []
  | x :: xs => insertDescBy wt x (sortDescBy wt xs)

/-- `words.sort((a, b) => b.word.length - a.word.length)`. -/
def sortDescLen (ws : List WordData) : List WordData :=
  sortDescBy (fun w => w.word.length) ws

/-- The inner candidate loop of `autoPlaceWords`: first candidate passing
`canPlaceWord` is committed through `placeWord`. -/
def tryCands (g : Grid) (w : WordData) :
    List AutoCand → Option (Grid × WordData)
  | [] => none
  | cand :: rest =>
    let nw := { w with
                startRow := cand.startRow
                startCol := cand.startCol
                direction := cand.direction }
    if (canPlaceWord g w.word cand.startRow cand.startCol cand.direction).canPlace
    then
      let res := placeWord g nw
      if res.1 then some (res.2, nw) else tryCands g w rest
    else tryCands g w rest

/-- The loop over previously placed words in `autoPlaceWords`. -/
def tryPlaced (g : Grid) (w : WordData) :
    List WordData → Option (Grid × WordData)
  | [] => none
  | p :: rest =>
    match tryCands g w (findPossibleIntersections w.word p) with
    | some r => some r
    | none => tryPlaced g w rest

/-- The outer loop of `autoPlaceWords` over the sorted tail. -/
def autoLoop (g : Grid) (placed : List WordData) :
    List WordData → Grid × List WordData
  | [] => (g, placed)
  | w :: rest =>
    match tryPlaced g w placed with
    | some (g2, nw) => autoLoop g2 (placed ++ [nw]) rest
    | none => autoLoop g placed rest

/-- `GridHelper.autoPlaceWords`.  The JS function sorts the caller's array
in place (`words.sort(...)` aliases `words`) and then mutates the anchor of
its first element; the second component of the result is the state of that
caller-owned array after the call.  The third component is `placedWords`. -/
def autoPlaceWords (g : Grid) (words : List WordData) :
    Grid × List WordData × List WordData :=
  match sortDescLen words with
  | [] => (g, [], [])
  | first :: rest =>
    let centerRow : Int := (g.length : Int) / 2
    let centerCol : Int := ((gridWidth g : Int) - first.word.length).fdiv 2
    let first2 := { first with
                    startRow := centerRow
                    startCol := centerCol
                    direction := "horizontal" }
    let res := placeWord g first2
    let placed0 := if res.1 then [first2] else []
    let out := autoLoop res.2 placed0 rest
    (out.1, first2 :: rest, out.2)

/-! ## Word difficulty (`WordHelper.calculateWordDifficulty`, part_001) -/

/-- The rare-letter list of `calculateWordDifficulty` (`X`, `Z`, `Q` are
Latin; the others Ukrainian). -/
def rareLettersHelper : List Char := ['Ї', 'Є', 'Ґ', 'Ь', 'X', 'Z', 'Q']

/-- Number of rare letters in a word. -/
def rareCount (word : String) : Nat :=
  (word.data.filter fun ch => rareLettersHelper.contains ch).length

/-- Membership in the consonant class of the cluster regex
`/[БВГДЖЗЙКЛМНПРСТФХЦЧШЩ]{3,}/g` (all Cyrillic). -/
def isClusterConsonant (ch : Char) : Bool :=
  (['Б', 'В', 'Г', 'Д', 'Ж', 'З', 'Й', 'К', 'Л', 'М', 'Н', 'П', 'Р', 'С',
    'Т', 'Ф', 'Х', 'Ц', 'Ч', 'Ш', 'Щ'] : List Char).contains ch

/-- Number of maximal runs of `≥ 3` consecutive consonants — the number of
matches of the greedy global regex above. -/
def clusterRuns : List Char → Nat → Nat
  | [], run => if 3 ≤ run then 1 else 0
  | ch :: rest, run =>
    if isClusterConsonant ch then clusterRuns rest (run + 1)
    else (if 3 ≤ run then 1 else 0) + clusterRuns rest 0

/-- `word.match(/[...]{3,}/g).length` (with `|| []`). -/
def consonantClusterCount (word : String) : Nat := clusterRuns word.data 0

/-- The rare-combination list of `calculateWordDifficulty`. -/
def rareCombosHelper : List (List Char) :=
  [['Я', 'Є'], ['Ю', 'Я'], ['Щ', 'Я'], ['Ь', 'Я']]

/-- Number of listed combinations occurring in the word
(`word.includes(combo) ? 1 : 0`, summed). -/
def rareComboCount (word : String) : Nat :=
  (rareCombosHelper.filter fun combo => decide (combo <:+: word.data)).length

/-- `WordHelper.calculateWordDifficulty` (part_001, lines 197–221). -/
def calculateWordDifficulty (word : String) : ℚ :=
  let base := min ((word.length : ℚ) / 15) (4 / 10)
  let rare := if word.length = 0 then 0
              else ((rareCount word : ℚ) / word.length) * (3 / 10)
  let clusters := (consonantClusterCount word : ℚ) * (1 / 10)
  let combos := (rareComboCount word : ℚ) * (1 / 10)
  min (base + rare + clusters + combos) 1

/-! ## Word score (`WordValidator.calculateWordScore`, part_000) -/

/-- `Math.round`: round half toward positive infinity. -/
def jsRound (q : ℚ) : ℤ := ⌊q + 1 / 2⌋

/-- `Math.max(0, Math.min(100, z))`. -/
def clamp100 (z : ℤ) : ℤ := max 0 (min 100 z)

/-- The `result.metrics` fields read by `calculateWordScore`
(`crosswordFriendliness`, `readabilityScore`; `|| 0` applies). -/
structure WordMetrics where
  crosswordFriendliness : Option ℚ
  readabilityScore : Option ℚ
deriving DecidableEq, Repr

/-- The fields of a `WordValidator` result record read by
`calculateWordScore`: the error/warning lists (only their lengths are
read, so they are carried as counts) and the metadata/metrics fields.
A `none` metadata field models a JS `undefined` (every comparison with it
is false); `metrics := none` models a falsy `result.metrics`. -/
structure WVResult where
  errors : Nat
  warnings : Nat
  complexity : Option ℚ
  uniqueCharsFrac : Option ℚ
  semanticRelevance : Option ℚ
  metrics : Option WordMetrics
deriving DecidableEq, Repr

/-- `WordValidator.calculateWordScore` (part_000, lines 701–730). -/
def calculateWordScore (r : WVResult) : ℤ :=
  let s : ℚ := 100 - r.errors * 30 - r.warnings * 10
  let s := match r.complexity with
    | some c => if 3 / 10 ≤ c ∧ c ≤ 7 / 10 then s + 10 else s
    | none => s
  let s := match r.uniqueCharsFrac with
    | some u => if 6 / 10 < u then s + 5 else s
    | none => s
  let s := match r.semanticRelevance with
    | some m => if 6 / 10 < m then s + 10 else s
    | none => s
  let s := match r.metrics with
    | some m => s + m.crosswordFriendliness.getD 0 * 15
                  + m.readabilityScore.getD 0 * 10
    | none => s
  clamp100 (jsRound s)

/-- The single-word score formula exactly as the specification states it:
100, −30 per error, −10 per warning, +10 for difficulty in `[0.3, 0.7]`,
+5 for unique-character share above 0.6, +10 for semantic relevance above
0.6, clamped to `[0, 100]` — and nothing else. -/
def specWordScore (r : WVResult) : ℤ :=
  let s : ℚ := 100 - r.errors * 30 - r.warnings * 10
    + (match r.complexity with
       | some c => if 3 / 10 ≤ c ∧ c ≤ 7 / 10 then 10 else 0
       | none => 0)
    + (match r.uniqueCharsFrac with
       | some u => if 6 / 10 < u then 5 else 0
       | none => 0)
    + (match r.semanticRelevance with
       | some m => if 6 / 10 < m then 10 else 0
       | none => 0)
  clamp100 ⌊s⌋

/-- The amended single-word score formula: the code additionally adds
`15 × metrics.crosswordFriendliness` and `10 × metrics.readabilityScore`
whenever the metrics record is present (it always is in `validateWord`,
which initialises `result.metrics = {}`), and rounds before clamping. -/
def amendedWordScore (r : WVResult) : ℤ :=
  let bonusC : ℚ := match r.complexity with
    | some c => if 3 / 10 ≤ c ∧ c ≤ 7 / 10 then 10 else 0
    | none => 0
  let bonusU : ℚ := match r.uniqueCharsFrac with
    | some u => if 6 / 10 < u then 5 else 0
    | none => 0
  let bonusS : ℚ := match r.semanticRelevance with
    | some m => if 6 / 10 < m then 10 else 0
    | none => 0
  let bonusM : ℚ := match r.metrics with
    | some m => m.crosswordFriendliness.getD 0 * 15 + m.readabilityScore.getD 0 * 10
    | none => 0
  clamp100 (jsRound
    (100 - r.errors * 30 - r.warnings * 10 + bonusC + bonusU + bonusS + bonusM))


/-! ## Grid validator (gridValidator.js) — report structure -/

/-- One report entry (an element of `errors` / `warnings` / `suggestions`).
Each constructor stands for one `push` site in the source; the payload is
the data that parametrises the JS message string. -/
inductive Finding where
  | gridEmpty
  | rowBadLength (i : Nat)
  | badCellStructure (row col : Nat)
  | sizeTooSmall (w h : Nat)
  | sizeTooBig (w h : Nat)
  | aspectWarn (w h : Nat)
  | bigGridWarn
  | tooFewWords (n : Nat)
  | tooManyWords (n : Nat)
  | badWordStructure (i : Nat)
  | wordTooShort (t : String)
  | wordTooLong (t : String)
  | clueTooShortWarn (t : String)
  | duplicateWordsErr (n : Nat)
  | duplicateNumbersWarn (n : Nat)
  | wordOutOfBoundsErr (t : String)
  | wordThroughBlocked (t : String) (r c : Int)
  | cellLetterConflict (r c : Int) (expected existing : Char)
  | wordNotRegistered (t : String) (r c : Int)
  | fewIntersectionsWarn (avg : Rat)
  | isolatedWordsWarn (ts : List String)
  | numberMismatch (t : String)
  | numberedCellNoWords (n : Int)
  | unknownWordRef (r c : Nat) (id : String)
  | lowDensityWarn (d : Rat)
  | highDensityWarn (d : Rat)
  | manyBlockedWarn (b : Rat)
  | manyComponentsWarn (n : Nat)
  | isolatedCellsWarn (n : Nat)
  | sugBalanceWords
  | sugGoodSymmetry
  | sugAddSymmetry
  | sugTooEasy
  | sugTooHard
  | criticalError (e : String)
deriving DecidableEq, Repr

structure GridSizeD where
  width : Nat
  height : Nat
  aspect : Rat
deriving DecidableEq, Repr

structure DuplicatesD where
  words : Nat
  numbers : Nat
deriving DecidableEq, Repr

structure PlacementErrD where
  outOfBounds : Nat
  overlapping : Nat
deriving DecidableEq, Repr

structure IntersectionCellD where
  row : Nat
  col : Nat
  wordIds : List String
  letter : Option Char
deriving DecidableEq, Repr

structure IntersectionsD where
  total : Nat
  averagePerWord : Rat
  isolatedWords : Nat
  cells : List IntersectionCellD
deriving DecidableEq, Repr

structure DensityD where
  filled : Rat
  blockedFrac : Rat
  filledCells : Nat
  blockedCells : Nat
  totalCells : Nat
deriving DecidableEq, Repr

structure ConnectivityD where
  components : Nat
  isolatedCells : Nat
  largestComponent : Nat
deriving DecidableEq, Repr

/-- `analyzeWordDistribution` result.  The JS field `ratio`
(`vertical / horizontal`) is called `frac` here. -/
structure WordDistributionD where
  total : Nat
  horizontal : Nat
  vertical : Nat
  frac : Rat
  averageLength : Rat
  lengthMin : Nat
  lengthMax : Nat
deriving DecidableEq, Repr

structure LetterFrequencyD where
  total : Nat
  unique : Nat
  mostCommon : List (Char × Nat)
  distribution : List (Char × Nat)
deriving DecidableEq, Repr

structure SymmetryD where
  horizontal : Rat
  vertical : Rat
deriving DecidableEq, Repr

structure ComplexityD where
  wordDifficulty : Rat
  intersectionDensity : Rat
  overallComplexity : Rat
deriving DecidableEq, Repr

structure QuadrantsD where
  topLeft : Nat
  topRight : Nat
  bottomLeft : Nat
  bottomRight : Nat
deriving DecidableEq, Repr

structure AestheticsD where
  -- `balance` is a JS number that can be `NaN`: the source divides by
  -- `height * width` unguarded, so an empty (zero-area) grid yields
  -- `0/0 = NaN`, modelled as `none`.
  balance : Option Rat
  centerFocus : Rat
  quadrants : QuadrantsD
deriving DecidableEq, Repr

structure QualityD where
  wordDistribution : WordDistributionD
  letterFrequency : LetterFrequencyD
  symmetry : SymmetryD
  complexity : ComplexityD
  aesthetics : AestheticsD
deriving DecidableEq, Repr

/-- The `result.details` object; each field is set by the check that
computes it (absent until then, hence `Option`). -/
structure Details where
  gridSize : Option GridSizeD
  wordsCount : Option Nat
  duplicates : Option DuplicatesD
  placementErrors : Option PlacementErrD
  intersections : Option IntersectionsD
  integrityIssues : Option Nat
  density : Option DensityD
  connectivity : Option ConnectivityD
  quality : Option QualityD
deriving DecidableEq, Repr

def emptyDetails : Details :=
  { gridSize := none, wordsCount := none, duplicates := none,
    placementErrors := none, intersections := none, integrityIssues := none,
    density := none, connectivity := none, quality := none }

/-- The validation report (`result` object of `validateGrid`).  The
`score` is a JS number that is `NaN` (`none`) when the unguarded aesthetics
balance is `NaN`; every non-`NaN` score the program produces is an integer
(a rounded, clamped value or the literal 0). -/
structure Report where
  isValid : Bool
  errors : List Finding
  warnings : List Finding
  suggestions : List Finding
  score : Option Int
  details : Details
deriving DecidableEq, Repr

def emptyReport : Report :=
  { isValid := true, errors := [], warnings := [], suggestions := [],
    score := some 0, details := emptyDetails }

def pushError (rep : Report) (f : Finding) : Report :=
  { rep with errors := rep.errors ++ [f] }

def pushWarning (rep : Report) (f : Finding) : Report :=
  { rep with warnings := rep.warnings ++ [f] }

def pushSuggestion (rep : Report) (f : Finding) : Report :=
  { rep with suggestions := rep.suggestions ++ [f] }

/-- A failed JS property access (`undefined.field`), carrying the report
as pushed so far — the catch in `validateGrid` keeps those entries. -/
abbrev VErr := String

def cellAccessErr : VErr := "TypeError: cell access on undefined"

/-! ## Grid validator — individual checks -/

/-- `isValidCellStructure`: checks `typeof cell.letter === 'string'`,
`Array.isArray(cell.wordIds)`, `Array.isArray(cell.directions)` and
`typeof cell.blocked === 'boolean'`; every value of the typed `Cell`
model satisfies all four conjuncts. -/
def isValidCellStructure (_cell : Cell) : Bool := true

/-- `isValidWordStructure`: type checks on `word`, `clue`, `direction`,
`startRow`, `startCol`; always satisfied by the typed `WordData` model
except the direction-membership conjunct, which is checked here. -/
def isValidWordStructure (w : WordData) : Bool :=
  w.direction = "horizontal" || w.direction = "vertical"

/-- Rectangularity loop of `validateGridStructure` (rows `1..`). -/
def rowLengthFindings (w0 : Nat) : Nat → List (List Cell) → List Finding
  | _, [] => []
  | i, row :: rest =>
    (if i ≠ 0 ∧ row.length ≠ w0 then [Finding.rowBadLength i] else [])
      ++ rowLengthFindings w0 (i + 1) rest

/-- `GridValidator.validateGridStructure` (the non-array branches cannot
fire on a typed grid; they are handled at the `validateGridJS` boundary). -/
def validateGridStructure (g : Grid) (rep : Report) : Report :=
  if g.length = 0 then pushError rep .gridEmpty
  else
    let rep := { rep with errors := rep.errors ++ rowLengthFindings (gridWidth g) 0 g }
    let bad := g.enum.flatMap fun p => p.2.enum.filterMap fun q =>
      if isValidCellStructure q.2 then none
      else some (Finding.badCellStructure p.1 q.1)
    { rep with errors := rep.errors ++ bad }

/-- `GridValidator.validateGridSize`.  Conditional pushes are rendered as
conditional appends inside the field update (same entries, same order). -/
def validateGridSize (g : Grid) (rep : Report) : Report :=
  let h := g.length
  let w := gridWidth g
  let mn := min w h
  let mx := max w h
  { rep with
    errors := rep.errors
      ++ (if h < 5 ∨ w < 5 then [Finding.sizeTooSmall w h] else [])
      ++ (if 25 < h ∨ 25 < w then [Finding.sizeTooBig w h] else []),
    -- `Math.max(w,h)/Math.min(w,h) > 2`: with `mn = 0` the JS quotient is
    -- Infinity (warn) unless also `mx = 0` (NaN, no warn)
    warnings := rep.warnings
      ++ (if (if mn = 0 then mx ≠ 0 else 2 < (mx : Rat) / mn)
          then [Finding.aspectWarn w h] else [])
      ++ (if 400 < w * h then [Finding.bigGridWarn] else []),
    details := { rep.details with
      gridSize := some { width := w, height := h,
                         aspect := if mn = 0 then 0 else (mx : Rat) / mn } } }

/-- The per-word loop of `validateWords`, threading the duplicate
bookkeeping sets (`wordTexts`, `wordNumbers`) and counters. -/
def validateWordsLoop :
    List WordData → Report → List String → List Int → Nat → Nat →
    Report × Nat × Nat
  | [], rep, _, _, dW, dN => (rep, dW, dN)
  | w :: rest, rep, texts, nums, dW, dN =>
    if isValidWordStructure w = false then
      -- `return` in the forEach body: skip the rest for this word
      validateWordsLoop rest (pushError rep (.badWordStructure 0)) texts nums dW dN
    else
      let rep := if w.word.length < 2 then pushError rep (.wordTooShort w.word) else rep
      let rep := if 25 < w.word.length then pushError rep (.wordTooLong w.word) else rep
      let seen := texts.contains w.word
      let dW2 := if seen then dW + 1 else dW
      let texts2 := if seen then texts else texts ++ [w.word]
      let numres : Nat × List Int := match w.number with
        | some n =>
          if n ≠ 0 then
            (if nums.contains n then (dN + 1, nums) else (dN, nums ++ [n]))
          else (dN, nums)
        | none => (dN, nums)
      let rep := if w.clue.trim.length < 5 then pushWarning rep (.clueTooShortWarn w.word) else rep
      validateWordsLoop rest rep texts2 numres.2 dW2 numres.1

/-- `GridValidator.validateWords`. -/
def validateWords (ws : List WordData) (rep : Report) : Report :=
  let n := ws.length
  let rep := if n < 2 then pushError rep (.tooFewWords n) else rep
  let rep := if 100 < n then pushWarning rep (.tooManyWords n) else rep
  let res := validateWordsLoop ws rep [] [] 0 0
  let rep := res.1
  let dW := res.2.1
  let dN := res.2.2
  let rep := if 0 < dW then pushError rep (.duplicateWordsErr dW) else rep
  let rep := if 0 < dN then pushWarning rep (.duplicateNumbersWarn dN) else rep
  { rep with details := { rep.details with
      wordsCount := some n, duplicates := some { words := dW, numbers := dN } } }

/-- `grid[r][c]` with the JS exception surfaced, keeping the report
accumulated so far. -/
def cellGetE (g : Grid) (r c : Int) (rep : Report) :
    Except (VErr × Report) Cell :=
  match cellGet g r c with
  | some cell => .ok cell
  | none => .error (cellAccessErr, rep)

/-- The letter loop of `validateWordPlacements` for one word. -/
def placementsCellLoop (g : Grid) (wd : WordData) :
    List (Nat × Char) → Report → Nat → Except (VErr × Report) (Report × Nat)
  | [], rep, ov => .ok (rep, ov)
  | (i, ch) :: rest, rep, ov =>
    let r := (posOf wd.startRow wd.startCol wd.direction i).1
    let c := (posOf wd.startRow wd.startCol wd.direction i).2
    match cellGet g r c with
    | none => .error (cellAccessErr, rep)
    | some cell =>
      if cell.blocked then
        -- `continue`: no letter/registration checks on a blocked cell
        placementsCellLoop g wd rest
          (pushError rep (.wordThroughBlocked wd.word r c)) ov
      else
        let st : Report × Nat := match cell.letter with
          | some l =>
            if l ≠ ch then (pushError rep (.cellLetterConflict r c ch l), ov + 1)
            else (rep, ov)
          | none => (rep, ov)
        let rep2 := if cell.wordIds.contains wd.id then st.1
                    else pushWarning st.1 (.wordNotRegistered wd.word r c)
        placementsCellLoop g wd rest rep2 st.2

/-- The word loop of `validateWordPlacements`. -/
def placementsWordLoop (g : Grid) (h w : Nat) :
    List WordData → Report → Nat → Nat →
    Except (VErr × Report) (Report × Nat × Nat)
  | [], rep, oob, ov => .ok (rep, oob, ov)
  | wd :: rest, rep, oob, ov =>
    let len : Int := wd.word.length
    let endRow := if wd.direction = "vertical" then wd.startRow + len - 1 else wd.startRow
    let endCol := if wd.direction = "horizontal" then wd.startCol + len - 1 else wd.startCol
    if wd.startRow < 0 ∨ wd.startCol < 0 ∨ (h : Int) ≤ endRow ∨ (w : Int) ≤ endCol then
      placementsWordLoop g h w rest
        (pushError rep (.wordOutOfBoundsErr wd.word)) (oob + 1) ov
    else
      match placementsCellLoop g wd wd.word.data.enum rep ov with
      | .error e => .error e
      | .ok res => placementsWordLoop g h w rest res.1 oob res.2

/-- `GridValidator.validateWordPlacements`. -/
def validateWordPlacements (g : Grid) (ws : List WordData) (rep : Report) :
    Except (VErr × Report) Report :=
  match placementsWordLoop g g.length (gridWidth g) ws rep 0 0 with
  | .error e => .error e
  | .ok res =>
    .ok { res.1 with details := { res.1.details with
        placementErrors := some { outOfBounds := res.2.1, overlapping := res.2.2 } } }

/-- The intersection scan of `validateIntersections` (cells with two or
more word ids, row-major). -/
def intersectionScan (g : Grid) : List IntersectionCellD :=
  g.enum.flatMap fun p => p.2.enum.filterMap fun q =>
    if 1 < q.2.wordIds.length then
      some { row := p.1, col := q.1, wordIds := q.2.wordIds, letter := q.2.letter }
    else none

/-- Does some cell of the word have two or more word ids (the `break`ing
inner loop of the isolated-word check)? -/
def wordHasIntersections (g : Grid) (wd : WordData) :
    List (Nat × Char) → Except VErr Bool
  | [] => .ok false
  | (i, _) :: rest =>
    let r := (posOf wd.startRow wd.startCol wd.direction i).1
    let c := (posOf wd.startRow wd.startCol wd.direction i).2
    match cellGet g r c with
    | none => .error cellAccessErr
    | some cell =>
      if 1 < cell.wordIds.length then .ok true
      else wordHasIntersections g wd rest

/-- The isolated-word loop of `validateIntersections` (`n` is
`words.size`). -/
def isolatedWordsLoop (g : Grid) (n : Nat) :
    List WordData → List String → Except VErr (List String)
  | [], acc => .ok acc
  | wd :: rest, acc =>
    match wordHasIntersections g wd wd.word.data.enum with
    | .error e => .error e
    | .ok has =>
      isolatedWordsLoop g n rest
        (if has = false ∧ 1 < n then acc ++ [wd.word] else acc)

/-- `GridValidator.validateIntersections`. -/
def validateIntersections (g : Grid) (ws : List WordData)
    (strictness : String) (rep : Report) : Except (VErr × Report) Report :=
  let inters := intersectionScan g
  let total := inters.length
  match isolatedWordsLoop g ws.length ws [] with
  | .error e => .error (e, rep)
  | .ok isolated =>
    let avg : Rat := if 0 < ws.length then (total : Rat) / ws.length else 0
    let rep := { rep with warnings := rep.warnings
      ++ (if strictness = "strict" ∧ avg < 1
          then [Finding.fewIntersectionsWarn avg] else [])
      ++ (if 0 < isolated.length
          then [Finding.isolatedWordsWarn isolated] else []) }
    .ok { rep with details := { rep.details with
        intersections := some { total := total, averagePerWord := avg,
                                isolatedWords := isolated.length, cells := inters } } }

structure NumberedCellInfo where
  row : Nat
  col : Nat
  num : Int
  wordIds : List String
deriving DecidableEq, Repr

/-- The numbered-cell scan of `validateGridIntegrity` (`cell.number`
truthy, i.e. present and nonzero). -/
def numberedCells (g : Grid) : List NumberedCellInfo :=
  g.enum.flatMap fun p => p.2.enum.filterMap fun q =>
    match q.2.number with
    | some n => if n ≠ 0 then some { row := p.1, col := q.1, num := n, wordIds := q.2.wordIds }
                else none
    | none => none

/-- The number-consistency loop of `validateGridIntegrity` (accesses the
start cell of every word without a bounds check). -/
def integrityWordLoop (g : Grid) :
    List WordData → List Finding → Except VErr (List Finding)
  | [], acc => .ok acc
  | wd :: rest, acc =>
    match cellGet g wd.startRow wd.startCol with
    | none => .error cellAccessErr
    | some startCell =>
      let acc := match wd.number with
        | some n =>
          if n ≠ 0 ∧ startCell.number ≠ some n then acc ++ [Finding.numberMismatch wd.word]
          else acc
        | none => acc
      integrityWordLoop g rest acc

/-- `GridValidator.validateGridIntegrity`. -/
def validateGridIntegrity (g : Grid) (ws : List WordData) (rep : Report) :
    Except (VErr × Report) Report :=
  let ncells := numberedCells g
  match integrityWordLoop g ws [] with
  | .error e => .error (e, rep)
  | .ok issues1 =>
    let issues2 := ncells.filterMap fun nc =>
      if nc.wordIds.isEmpty then some (Finding.numberedCellNoWords nc.num) else none
    let issues3 := g.enum.flatMap fun p => p.2.enum.flatMap fun q =>
      q.2.wordIds.filterMap fun wid =>
        if ws.any fun w => w.id = wid then none
        else some (Finding.unknownWordRef p.1 q.1 wid)
    let issues := issues1 ++ issues2 ++ issues3
    .ok { rep with
          warnings := rep.warnings ++ issues,
          details := { rep.details with integrityIssues := some issues.length } }

/-- `GridValidator.validateDensity`. -/
def validateDensity (g : Grid) (rep : Report) : Report :=
  let total := g.length * gridWidth g
  let cells := g.flatMap fun row => row
  let blockedCells := (cells.filter fun c => c.blocked).length
  let filledCells := (cells.filter fun c => c.blocked = false ∧ c.letter.isSome).length
  let density : Rat := if 0 < total then (filledCells : Rat) / total else 0
  let blockedFrac : Rat := if 0 < total then (blockedCells : Rat) / total else 0
  let rep := { rep with warnings := rep.warnings
    ++ (if density < 1 / 10 then [Finding.lowDensityWarn density] else [])
    ++ (if 8 / 10 < density then [Finding.highDensityWarn density] else [])
    ++ (if 3 / 10 < blockedFrac then [Finding.manyBlockedWarn blockedFrac] else []) }
  { rep with details := { rep.details with
      density := some { filled := density, blockedFrac := blockedFrac,
                        filledCells := filledCells, blockedCells := blockedCells,
                        totalCells := total } } }

/-- Worklist flood fill equivalent to the recursive `dfs` of
`findConnectedComponents`: same visited set, same component membership and
the same missing-cell exception condition; only the traversal order
differs, which the report never observes.  The fuel bound `5*h*w + 5`
exceeds the possible number of stack pops (at most one initial push plus
four pushes per marked cell). -/
def flood (g : Grid) (h w : Nat) :
    Nat → List (Int × Int) → List (Nat × Nat) → List (Nat × Nat) →
    Except VErr (List (Nat × Nat) × List (Nat × Nat))
  | 0, _, visited, comp => .ok (visited, comp)
  | _ + 1, [], visited, comp => .ok (visited, comp)
  | fuel + 1, (r, c) :: stack, visited, comp =>
    if r < 0 ∨ (h : Int) ≤ r ∨ c < 0 ∨ (w : Int) ≤ c then
      flood g h w fuel stack visited comp
    else if visited.contains (r.toNat, c.toNat) then
      flood g h w fuel stack visited comp
    else
      match cellGet g r c with
      | none => .error cellAccessErr
      | some cell =>
        if cell.blocked ∨ cell.letter = none then
          flood g h w fuel stack visited comp
        else
          flood g h w fuel
            ((r - 1, c) :: (r + 1, c) :: (r, c - 1) :: (r, c + 1) :: stack)
            ((r.toNat, c.toNat) :: visited)
            (comp ++ [(r.toNat, c.toNat)])

/-- The outer scan of `findConnectedComponents` (`visited` is consulted
before the cell is accessed, as in the JS `&&` chain). -/
def componentsLoop (g : Grid) (h w : Nat) :
    List (Nat × Nat) → List (Nat × Nat) → List (List (Nat × Nat)) →
    Except VErr (List (List (Nat × Nat)))
  | [], _, comps => .ok comps
  | (r, c) :: rest, visited, comps =>
    if visited.contains (r, c) then componentsLoop g h w rest visited comps
    else
      match cellGet g r c with
      | none => .error cellAccessErr
      | some cell =>
        if cell.blocked = false ∧ cell.letter.isSome then
          match flood g h w (5 * (h * w) + 5) [((r : Int), (c : Int))] visited [] with
          | .error e => .error e
          | .ok res =>
            componentsLoop g h w rest res.1
              (if 0 < res.2.length then comps ++ [res.2] else comps)
        else componentsLoop g h w rest visited comps

/-- `GridValidator.findConnectedComponents`. -/
def findConnectedComponents (g : Grid) :
    Except VErr (List (List (Nat × Nat))) :=
  componentsLoop g g.length (gridWidth g)
    ((List.range g.length).flatMap fun r =>
      (List.range (gridWidth g)).map fun c => (r, c)) [] []

/-- `GridValidator.findIsolatedCells` (letter, unblocked, no word ids). -/
def findIsolatedCells (g : Grid) :
    List (Nat × Nat) → List (Nat × Nat) → Except VErr (List (Nat × Nat))
  | [], acc => .ok acc
  | (r, c) :: rest, acc =>
    match cellGet g r c with
    | none => .error cellAccessErr
    | some cell =>
      findIsolatedCells g rest
        (if cell.letter.isSome ∧ cell.blocked = false ∧ cell.wordIds.isEmpty
         then acc ++ [(r, c)] else acc)

/-- `GridValidator.validateIsolation` (the `words` argument is unused in
the source as well). -/
def validateIsolation (g : Grid) (_ws : List WordData) (rep : Report) :
    Except (VErr × Report) Report :=
  match findConnectedComponents g with
  | .error e => .error (e, rep)
  | .ok comps =>
    match findIsolatedCells g
        ((List.range g.length).flatMap fun r =>
          (List.range (gridWidth g)).map fun c => (r, c)) [] with
    | .error e => .error (e, rep)
    | .ok isolated =>
      let rep := if 1 < comps.length
                 then pushWarning rep (.manyComponentsWarn comps.length) else rep
      let rep := if 0 < isolated.length
                 then pushWarning rep (.isolatedCellsWarn isolated.length) else rep
      .ok { rep with details := { rep.details with
          connectivity := some { components := comps.length,
                                 isolatedCells := isolated.length,
                                 largestComponent := (comps.map List.length).foldr max 0 } } }


/-! ## Grid validator — quality analysis -/

/-- `GridValidator.analyzeWordDistribution`. -/
def analyzeWordDistribution (ws : List WordData) : WordDistributionD :=
  let horizontal := (ws.filter fun w => w.direction = "horizontal").length
  let vertical := (ws.filter fun w => w.direction = "vertical").length
  let lengths : List Nat := ws.map fun w => w.word.length
  let lsum : Nat := lengths.sum
  -- `reduce(...) / lengths.length || 0`: the empty case (NaN) becomes 0
  let avgLength : Rat := if lengths.length = 0 then 0 else (lsum : Rat) / lengths.length
  -- `Math.min(...lengths, Infinity)`, then `Infinity` reported as 0
  let minLen := match lengths with
    | [] => 0
    | x :: xs => xs.foldl min x
  let maxLen := lengths.foldr max 0
  { total := ws.length, horizontal := horizontal, vertical := vertical,
    frac := if 0 < horizontal then (vertical : Rat) / horizontal else 0,
    averageLength := avgLength, lengthMin := minLen, lengthMax := maxLen }

/-- Insertion-ordered frequency table (JS object keys keep first-occurrence
order for letter keys). -/
def tallyAdd : List (Char × Nat) → Char → List (Char × Nat)
  | [], ch => [(ch, 1)]
  | (a, n) :: rest, ch =>
    if a = ch then (a, n + 1) :: rest else (a, n) :: tallyAdd rest ch

def tally : List Char → List (Char × Nat) → List (Char × Nat)
  | [], acc => acc
  | ch :: rest, acc => tally rest (tallyAdd acc ch)

/-- `GridValidator.analyzeLetterFrequency`. -/
def analyzeLetterFrequency (g : Grid) : LetterFrequencyD :=
  let letters := g.flatMap fun row => row.filterMap fun cell =>
    match cell.letter with
    | some l => if cell.blocked then none else some l
    | none => none
  let freq := tally letters []
  let sorted := sortDescBy (fun p => p.2) freq
  { total := letters.length, unique := freq.length,
    mostCommon := sorted.take 5, distribution := freq }

/-- One mirrored-pair comparison loop of `analyzeSymmetry` (counts pairs
whose `blocked` flags agree; either access can hit a missing cell). -/
def symCount (g : Grid) :
    List ((Int × Int) × (Int × Int)) → Nat → Except VErr Nat
  | [], acc => .ok acc
  | (p, q) :: rest, acc =>
    match cellGet g p.1 p.2, cellGet g q.1 q.2 with
    | some c1, some c2 =>
      symCount g rest (if c1.blocked = c2.blocked then acc + 1 else acc)
    | _, _ => .error cellAccessErr

/-- `GridValidator.analyzeSymmetry`.  The source reuses a single
`totalComparisons` variable and resets it between the two loops, so BOTH
returned quotients are divided by the vertical comparison count
`⌊w/2⌋ * h` (on square grids the horizontal count is the same number). -/
def analyzeSymmetry (g : Grid) : Except VErr SymmetryD :=
  let h := g.length
  let w := gridWidth g
  let hPos := (List.range (h / 2)).flatMap fun r =>
    (List.range w).map fun c => (((r : Int), (c : Int)), (Int.ofNat (h - 1 - r), (c : Int)))
  match symCount g hPos 0 with
  | .error e => .error e
  | .ok hCount =>
    let vPos := (List.range (w / 2)).flatMap fun c =>
      (List.range h).map fun r => (((r : Int), (c : Int)), ((r : Int), Int.ofNat (w - 1 - c)))
    match symCount g vPos 0 with
    | .error e => .error e
    | .ok vCount =>
      let denom := (w / 2) * h
      .ok { horizontal := if 0 < denom then (hCount : Rat) / denom else 0,
            vertical := if 0 < denom then (vCount : Rat) / denom else 0 }

/-- `GridValidator.analyzeComplexity`. -/
def analyzeComplexity (g : Grid) (ws : List WordData) : ComplexityD :=
  -- `reduce(sum + (difficulty || 0)) / n || 0`
  let avgDifficulty : Rat := if ws.length = 0 then 0
    else (ws.map fun w => w.difficulty.getD 0).sum / ws.length
  let interCells := g.flatMap fun row => row.filter fun c => 1 < c.wordIds.length
  let count := interCells.length
  let cxSum : Nat := (interCells.map fun c => c.wordIds.length - 1).sum
  let avgIC : Rat := if 0 < count then (cxSum : Rat) / count else 0
  { wordDifficulty := avgDifficulty, intersectionDensity := avgIC,
    overallComplexity := (avgDifficulty + avgIC) / 2 }

/-- The quadrant-count loop of `analyzeQuadrantDistribution`. -/
def quadrantLoop (g : Grid) (midRow midCol : Nat) :
    List (Nat × Nat) → QuadrantsD → Except VErr QuadrantsD
  | [], q => .ok q
  | (r, c) :: rest, q =>
    match cellGet g r c with
    | none => .error cellAccessErr
    | some cell =>
      let q := if cell.letter.isSome ∧ cell.blocked = false then
          if r < midRow ∧ c < midCol then { q with topLeft := q.topLeft + 1 }
          else if r < midRow ∧ midCol ≤ c then { q with topRight := q.topRight + 1 }
          else if midRow ≤ r ∧ c < midCol then { q with bottomLeft := q.bottomLeft + 1 }
          else { q with bottomRight := q.bottomRight + 1 }
        else q
      quadrantLoop g midRow midCol rest q

/-- The counting loop of `analyzeCenterFilling` (`row < height && col <
width` always holds on the generated range and is dropped). -/
def centerLoop (g : Grid) :
    List (Nat × Nat) → Nat → Nat → Except VErr (Nat × Nat)
  | [], cc, fc => .ok (cc, fc)
  | (r, c) :: rest, cc, fc =>
    match cellGet g r c with
    | none => .error cellAccessErr
    | some cell =>
      centerLoop g rest (cc + 1)
        (if cell.letter.isSome ∧ cell.blocked = false then fc + 1 else fc)

/-- `GridValidator.analyzeAesthetics` together with its helpers
`analyzeQuadrantDistribution` and `analyzeCenterFilling`.
`Math.floor(h * 0.25)` is `h / 4` and `Math.floor(h * 0.75)` is
`3 * h / 4` in exact arithmetic (0.25 and 0.75 are dyadic). -/
def analyzeAesthetics (g : Grid) : Except VErr AestheticsD :=
  let h := g.length
  let w := gridWidth g
  match quadrantLoop g (h / 2) (w / 2)
      ((List.range h).flatMap fun r => (List.range w).map fun c => (r, c))
      { topLeft := 0, topRight := 0, bottomLeft := 0, bottomRight := 0 } with
  | .error e => .error e
  | .ok quads =>
    match centerLoop g
        ((List.range' (h / 4) (3 * h / 4 - h / 4)).flatMap fun r =>
          (List.range' (w / 4) (3 * w / 4 - w / 4)).map fun c => (r, c)) 0 0 with
    | .error e => .error e
    | .ok cf =>
      let balanceDiff : Int :=
        (quads.topLeft : Int) + quads.bottomRight - quads.topRight - quads.bottomLeft
      -- `1 - |...| / (h * w)`: the division is unguarded in the source.
      -- When `h * w = 0` the grid has no cells, every quadrant count is 0,
      -- and the JS computes `1 - 0/0 = NaN` (`none` here); otherwise the
      -- value is a finite rational.
      .ok { balance := if h * w = 0 then none
              else some (1 - ((balanceDiff.natAbs : Rat) / (h * w))),
            centerFocus := if 0 < cf.1 then (cf.2 : Rat) / cf.1 else 0,
            quadrants := quads }

/-- `GridValidator.generateQualityRecommendations` (same entries in the
same order, as conditional appends). -/
def generateQualityRecommendations (q : QualityD) (rep : Report) : Report :=
  { rep with suggestions := rep.suggestions
    ++ (if 3 / 10 < |q.wordDistribution.frac - 1|
        then [Finding.sugBalanceWords] else [])
    ++ (if 8 / 10 < q.symmetry.horizontal ∨ 8 / 10 < q.symmetry.vertical
        then [Finding.sugGoodSymmetry]
        else if q.symmetry.horizontal < 3 / 10 ∧ q.symmetry.vertical < 3 / 10
        then [Finding.sugAddSymmetry] else [])
    ++ (if q.complexity.overallComplexity < 3 / 10
        then [Finding.sugTooEasy]
        else if 8 / 10 < q.complexity.overallComplexity
        then [Finding.sugTooHard] else []) }

/-- `GridValidator.analyzeGridQuality`. -/
def analyzeGridQuality (g : Grid) (ws : List WordData) (rep : Report) :
    Except (VErr × Report) Report :=
  let dist := analyzeWordDistribution ws
  let freq := analyzeLetterFrequency g
  match analyzeSymmetry g with
  | .error e => .error (e, rep)
  | .ok sym =>
    let cx := analyzeComplexity g ws
    match analyzeAesthetics g with
    | .error e => .error (e, rep)
    | .ok aest =>
      let quality : QualityD :=
        { wordDistribution := dist, letterFrequency := freq, symmetry := sym,
          complexity := cx, aesthetics := aest }
      let rep := generateQualityRecommendations quality rep
      .ok { rep with details := { rep.details with quality := some quality } }

/-! ## Grid validator — overall score, hashing, caching -/

/-- `GridValidator.calculateOverallScore` (lines 877–907): −20 per error,
−5 per warning, `(symH + symV) * 5` and `balance * 10` as bonuses when the
quality details exist, −10 for density outside `[0.1, 0.8]` when the
density details also exist, then `Math.max(0, Math.min(100, Math.round(.)))`.
A `NaN` balance (`none`) contaminates `score += balance * 10` and every
later step — the density penalty, `Math.round`, `Math.min` and `Math.max`
all map `NaN` to `NaN` — so the function returns `NaN` (`none`) then. -/
def calculateOverallScore (rep : Report) : Option Int :=
  let base : Rat := 100 - rep.errors.length * 20 - rep.warnings.length * 5
  match rep.details.quality with
  | none => some (clamp100 (jsRound base))
  | some q =>
    match q.aesthetics.balance with
    | none => none
    | some b =>
      let s1 := base + (q.symmetry.horizontal + q.symmetry.vertical) * 5
                     + b * 10
      let s : Rat := match rep.details.density with
        | some d => if d.filled < 1 / 10 ∨ 8 / 10 < d.filled then s1 - 10 else s1
        | none => s1
      some (clamp100 (jsRound s))

/-- `GridValidator.runChecks` body of the `try` block of `validateGrid`:
the nine checks in order, then score and validity.  An exception carries
the partially filled report. -/
def runChecks (g : Grid) (ws : List WordData) (strictness : String) :
    Except (VErr × Report) Report :=
  let rep := emptyReport
  let rep := validateGridStructure g rep
  let rep := validateGridSize g rep
  let rep := validateWords ws rep
  match validateWordPlacements g ws rep with
  | .error e => .error e
  | .ok rep =>
  match validateIntersections g ws strictness rep with
  | .error e => .error e
  | .ok rep =>
  match validateGridIntegrity g ws rep with
  | .error e => .error e
  | .ok rep =>
  let rep := validateDensity g rep
  match validateIsolation g ws rep with
  | .error e => .error e
  | .ok rep =>
  match analyzeGridQuality g ws rep with
  | .error e => .error e
  | .ok rep =>
  let rep := { rep with score := calculateOverallScore rep }
  .ok { rep with isValid := decide (rep.errors.length = 0) }

/-- The `try`/`catch` of `validateGrid`: a crash inside the checks becomes
one critical error entry with the score forced to 0. -/
def computeReport (g : Grid) (ws : List WordData) (strictness : String) :
    Report :=
  match runChecks g ws strictness with
  | .ok r => r
  | .error (e, r) =>
    { r with isValid := false,
             errors := r.errors ++ [Finding.criticalError e],
             score := some 0 }

/-- ToInt32 coercion (`x & x` and `<<` operands in JS). -/
def toInt32 (x : Int) : Int := (x + 2 ^ 31) % 2 ^ 32 - 2 ^ 31

/-- One step of `simpleHash`: `hash = ((hash << 5) - hash) + charCode;
hash = hash & hash`. -/
def simpleHashStep (h : Int) (ch : Char) : Int :=
  toInt32 (toInt32 (32 * h) - h + ch.toNat)

/-- `GridValidator.simpleHash` (`hash.toString()` at the end). -/
def simpleHash (s : String) : String :=
  toString (s.data.foldl simpleHashStep 0)

/-- The per-cell fragment of `hashGrid`:
`` `${cell.letter}${cell.blocked ? 'B' : ''}${cell.number || ''}` ``
(a zero number is falsy and contributes nothing). -/
def hashCellString (c : Cell) : String :=
  (match c.letter with
   | some ch => String.singleton ch
   | none => "") ++
  (if c.blocked then "B" else "") ++
  (match c.number with
   | some n => if n = 0 then "" else toString n
   | none => "")

/-- `GridValidator.hashGrid`. -/
def hashGrid (g : Grid) : String :=
  simpleHash (String.join (g.map fun row => String.join (row.map hashCellString)))

/-- Stable ascending insertion by id, reproducing
`sort((a, b) => a.id.localeCompare(b.id))` (code-point comparison; the
ids used here are plain ASCII, where `localeCompare` agrees). -/
def insertByIdAsc (x : WordData) : List WordData → List WordData
  | [] => [x]
  | y :: ys => if x.id < y.id then x :: y :: ys else y :: insertByIdAsc x ys

def sortById : List WordData → List WordData
  | [] => []
  | x :: xs => insertByIdAsc x (sortById xs)

/-- `GridValidator.hashWords`. -/
def hashWords (ws : List WordData) : String :=
  simpleHash (String.intercalate "|" ((sortById ws).map fun w =>
    w.word ++ "-" ++ w.direction ++ "-" ++ toString w.startRow ++ "-" ++ toString w.startCol))

/-- `GridValidator.generateCacheKey`. -/
def generateCacheKey (g : Grid) (ws : List WordData) (strictness : String) :
    String :=
  hashGrid g ++ "-" ++ hashWords ws ++ "-" ++ strictness

/-- The validator instance state: its `validationCache` map
(`Map.set` = overriding insertion, modelled by consing, `Map.get` by the
first association found). -/
structure VState where
  cache : List (String × Report)
deriving DecidableEq, Repr

/-- `GridValidator.validateGrid` on a well-typed grid: compute the key,
serve from the cache on a hit, otherwise run the checks under the catch
and store the result. -/
def validateGrid (st : VState) (g : Grid) (ws : List WordData)
    (strictness : String) : Report × VState :=
  let cacheKey := generateCacheKey g ws strictness
  match st.cache.lookup cacheKey with
  | some r => (r, st)
  | none =>
    let r := computeReport g ws strictness
    (r, ⟨(cacheKey, r) :: st.cache⟩)

/-- A possibly malformed `grid` argument: the JS value may fail to be an
array, or have rows that are not arrays. -/
inductive RowJS where
  | arr (cells : List Cell)
  | notArray
deriving DecidableEq, Repr

inductive GridJS where
  | arr (rows : List RowJS)
  | notArray
deriving DecidableEq, Repr

/-- `grid.forEach(row => row.forEach(...))` over a `GridJS`: the exception
thrown on the first non-array row. -/
def rowsToGrid : List RowJS → Except VErr Grid
  | [] => .ok []
  | RowJS.arr cells :: rest =>
    match rowsToGrid rest with
    | .error e => .error e
    | .ok g => .ok (cells :: g)
  | RowJS.notArray :: _ => .error "TypeError: row.forEach is not a function"

/-- `GridValidator.validateGrid` including its malformed-grid behaviour:
the very first statement of the source function is
`generateCacheKey(grid, words, strictness)`, OUTSIDE the `try`, and
`hashGrid` traverses the grid with `forEach`; a grid that is not an array
of arrays therefore throws a `TypeError` that propagates to the caller
before any check or any catch runs.  On an array-of-arrays grid the call
proceeds exactly as `validateGrid`. -/
def validateGridJS (st : VState) (gj : GridJS) (ws : List WordData)
    (strictness : String) : Except VErr (Report × VState) :=
  match gj with
  | GridJS.notArray => .error "TypeError: grid.forEach is not a function"
  | GridJS.arr rows =>
    match rowsToGrid rows with
    | .error e => .error e
    | .ok g => .ok (validateGrid st g ws strictness)

/-! ## Specification-side score formulas (for refinement comparison) -/

/-- The grid score formula exactly as claim C7 words it: 100, −20 per
error, −5 per warning, plus 10 × (horizontal + vertical symmetry), plus
10 × balance, −10 when the fill density is outside `[0.1, 0.8]`, rounded
and clamped to `[0, 100]` — by the claim the result is always a genuine
integer, hence always `some`; a `NaN` balance is treated as its claimed
normalised value 1 (the 0-for-0/0 reading of `|diff| / (h*w)`). -/
def specOverallScore (rep : Report) : Option Int :=
  let s : Rat := 100 - rep.errors.length * 20 - rep.warnings.length * 5
    + (match rep.details.quality with
       | some q => (q.symmetry.horizontal + q.symmetry.vertical) * 10
                   + (q.aesthetics.balance.getD 1) * 10
       | none => 0)
    + (match rep.details.density with
       | some d => if d.filled < 1 / 10 ∨ 8 / 10 < d.filled then -10 else 0
       | none => 0)
  some (clamp100 (jsRound s))

/-- The amended grid score formula: the symmetry bonus is `5` per unit of
summed symmetry (at most 10 in total), the quality/density bonuses and
the density penalty apply only when the corresponding details records are
present (the penalty additionally requires the quality record, matching
the nesting in the source), and a `NaN` aesthetics balance — which the
unguarded division produces on every zero-area grid — makes the whole
score `NaN` (`none`): the round/clamp chain does not stop it. -/
def amendedOverallScore (rep : Report) : Option Int :=
  let s : Rat := 100 - rep.errors.length * 20 - rep.warnings.length * 5
  match rep.details.quality with
  | none => some (clamp100 (jsRound s))
  | some q =>
    match q.aesthetics.balance with
    | none => none
    | some b =>
      let pen : Rat := match rep.details.density with
        | some d => if d.filled < 1 / 10 ∨ 8 / 10 < d.filled then -10 else 0
        | none => 0
      some (clamp100 (jsRound
        (s + (q.symmetry.horizontal + q.symmetry.vertical) * 5
           + b * 10 + pen)))


/-! ## Shared helper lemmas -/

theorem clamp100_nonneg (z : Int) : 0 ≤ clamp100 z := le_max_left 0 _

theorem clamp100_le (z : Int) : clamp100 z ≤ 100 :=
  max_le (by norm_num) (min_le_left 100 z)

theorem jsRound_eq (q : Rat) (z : Int) (h1 : (z : Rat) ≤ q + 1 / 2)
    (h2 : q + 1 / 2 < z + 1) : jsRound q = z := by
  rw [jsRound, Int.floor_eq_iff]
  exact ⟨h1, h2⟩

/-! ## Concrete example data used by witnesses and counterexamples -/

/-- The word "CAT", horizontal at (2,2). -/
def exWordA : WordData :=
  { id := "A", word := "CAT", clue := "feline pet", direction := "horizontal",
    startRow := 2, startCol := 2, number := some 1, difficulty := none }

/-- The word "CAR", vertical at (2,2) — its first cell is the shared C. -/
def exWordB : WordData :=
  { id := "B", word := "CAR", clue := "automobile", direction := "vertical",
    startRow := 2, startCol := 2, number := some 2, difficulty := none }

/-- A 5×5 grid with "CAT" placed. -/
def exGrid1 : Grid := (placeWord (buildGrid 5 5) exWordA).2

/-- A word data record that fails the legality check (too short). -/
def exShortWord : WordData :=
  { id := "S", word := "A", clue := "letter", direction := "horizontal",
    startRow := 0, startCol := 0, number := none, difficulty := none }

/-- Two 2×2 grids differing only in the `wordIds` of cell (0,0) — a field
the cache key does not hash but the checks inspect. -/
def exGridKeyA : Grid :=
  [[{ emptyCell with letter := some 'A' }, emptyCell], [emptyCell, emptyCell]]

def exGridKeyB : Grid :=
  [[{ emptyCell with letter := some 'A', wordIds := ["w1"] }, emptyCell],
   [emptyCell, emptyCell]]

/-- A 1×2 grid holding A, B and a 2×1 grid holding the same letters:
`hashGrid` concatenates cell fragments row-major with no separator, so
both hash the string "AB" and receive the same cache key. -/
def exGridRow : Grid :=
  [[{ emptyCell with letter := some 'A' }, { emptyCell with letter := some 'B' }]]

def exGridCol : Grid :=
  [[{ emptyCell with letter := some 'A' }], [{ emptyCell with letter := some 'B' }]]

/-- A quality-details record with full symmetry and zero balance. -/
def exQuality : QualityD :=
  { wordDistribution := { total := 0, horizontal := 0, vertical := 0, frac := 0,
                          averageLength := 0, lengthMin := 0, lengthMax := 0 },
    letterFrequency := { total := 0, unique := 0, mostCommon := [], distribution := [] },
    symmetry := { horizontal := 1, vertical := 1 },
    complexity := { wordDifficulty := 0, intersectionDensity := 0, overallComplexity := 0 },
    aesthetics := { balance := some 0, centerFocus := 0,
                    quadrants := { topLeft := 0, topRight := 0, bottomLeft := 0, bottomRight := 0 } } }

/-- A report with one error, full symmetry, zero balance, in-band density:
the claim formula gives 100, the code gives 90. -/
def exReportScore : Report :=
  { emptyReport with
    errors := [Finding.gridEmpty],
    details := { emptyDetails with
      quality := some exQuality,
      density := some { filled := 1 / 2, blockedFrac := 0, filledCells := 0,
                        blockedCells := 0, totalCells := 0 } } }

/-- A word-validator result with one error and `crosswordFriendliness = 1`:
the claim formula gives 70, the code gives 85. -/
def exWVResult : WVResult :=
  { errors := 1, warnings := 0, complexity := none, uniqueCharsFrac := none,
    semanticRelevance := none,
    metrics := some { crosswordFriendliness := some 1, readabilityScore := some 0 } }

/-! ## C2 — the validator can throw (cache key computed outside the catch) -/

/-- C2: `GridValidator.validateGrid` does NOT always return a report.  On a
grid that is not an array (the claim explicitly includes such malformed
inputs) the first statement of the function — `generateCacheKey`, whose
`hashGrid` iterates the grid with `forEach` — throws a `TypeError` BEFORE
the protective `try`/`catch` is entered, and the exception propagates to
the caller instead of being converted into a critical-error report. -/
theorem validateGrid_throws_on_nonArray_grid :
    validateGridJS { cache := [] } GridJS.notArray [] "normal" =
      Except.error "TypeError: grid.forEach is not a function" := rfl

/-! ## C3 — the cache key misses fields the checks inspect -/

/-- C3 counterexample: the 1×2 grid `exGridRow` and the 2×1 grid
`exGridCol` receive the same cache key (the grid hash concatenates the
cell fragments row-major with no separator, so both hash "AB"; words and
strictness are identical) — yet an uncached run of the checks returns
different reports: the size check reports 2×1 in one and 1×2 in the other,
so a report served from the cache under this key is stale for the other
grid. -/
theorem generateCacheKey_stale_ce :
    generateCacheKey exGridRow [] "normal" = generateCacheKey exGridCol [] "normal" ∧
    computeReport exGridRow [] "normal" ≠ computeReport exGridCol [] "normal" := by
  refine ⟨by decide, fun h => ?_⟩
  have herr := congrArg Report.errors h
  revert herr
  decide

/-! ## C7 — grid score: the symmetry bonus is 5 per unit, not 10 -/

/-- C7 counterexample: on a report with one error, both symmetry quotients
1, balance 0 and in-band density, the claim formula
(100 − 20 + 10·(1+1)) clamps to 100 while the code
(100 − 20 + 5·(1+1)) yields 90. -/
theorem calculateOverallScore_ce :
    calculateOverallScore exReportScore ≠ specOverallScore exReportScore := by
  have hr1 : jsRound (90 : Rat) = 90 := jsRound_eq _ _ (by norm_num) (by norm_num)
  have hr2 : jsRound (100 : Rat) = 100 := jsRound_eq _ _ (by norm_num) (by norm_num)
  norm_num [calculateOverallScore, specOverallScore, exReportScore, exQuality,
    emptyReport, emptyDetails, clamp100, Option.getD, hr1, hr2]

/-! ## C8 — word score: the metrics bonuses exist -/

/-- C8 counterexample: with one error and `metrics.crosswordFriendliness`
equal to 1, the claim formula gives 70 but the code adds `1 * 15` and
returns 85 — the claim's "no other contributions" is false. -/
theorem calculateWordScore_ce :
    calculateWordScore exWVResult ≠ specWordScore exWVResult := by
  have hr1 : jsRound (85 : Rat) = 85 := jsRound_eq _ _ (by norm_num) (by norm_num)
  have hr2 : ⌊(70 : Rat)⌋ = 70 := by norm_num
  norm_num [calculateWordScore, specWordScore, exWVResult, clamp100, hr1, hr2]

/-! ## C9 — difficulty is not monotone in rare letters alone -/

/-- C9 counterexample: "ЇААА" and "БВГА" have the same length and the
first has strictly more rare letters (1 versus 0), yet its difficulty
41/120 is strictly below the second's 44/120, because the second scores a
0.1 consonant-cluster bonus ("БВГ"). -/
theorem calculateWordDifficulty_mono_ce :
    ("ЇААА" : String).length = ("БВГА" : String).length ∧
    rareCount "БВГА" < rareCount "ЇААА" ∧
    calculateWordDifficulty "ЇААА" < calculateWordDifficulty "БВГА" := by
  have ha : calculateWordDifficulty "ЇААА" = 41 / 120 := by
    have e1 : ("ЇААА" : String).length = 4 := rfl
    have e2 : rareCount "ЇААА" = 1 := by decide
    have e3 : consonantClusterCount "ЇААА" = 0 := by decide
    have e4 : rareComboCount "ЇААА" = 0 := by decide
    rw [calculateWordDifficulty, e1, e2, e3, e4]
    norm_num [min_def]
  have hb : calculateWordDifficulty "БВГА" = 44 / 120 := by
    have e1 : ("БВГА" : String).length = 4 := rfl
    have e2 : rareCount "БВГА" = 0 := by decide
    have e3 : consonantClusterCount "БВГА" = 1 := by decide
    have e4 : rareComboCount "БВГА" = 0 := by decide
    rw [calculateWordDifficulty, e1, e2, e3, e4]
    norm_num [min_def]
  refine ⟨by decide, by decide, ?_⟩
  rw [ha, hb]
  norm_num

/-! ## C1 — round-trip fails on intersecting placements -/

/-- C1 counterexample: place "CAT" at (2,2); the candidate "CAR" vertical
at (2,2) is accepted by the legality check, but placing and then removing
it does not restore the grid: on the shared cell the removed word's
direction stays in `directions` and its number stays in `number`. -/
theorem placeWord_removeWord_roundtrip_ce :
    (canPlaceWord exGrid1 exWordB.word exWordB.startRow exWordB.startCol
        exWordB.direction).canPlace = true ∧
    (removeWord (placeWord exGrid1 exWordB).2 exWordB.id).2 ≠ exGrid1 := by
  decide


/-! ## C4 — idempotent cached validation -/

/-- C4: calling `validateGrid` twice on the same validator state with
unchanged grid, words and strictness: after the first call the cache maps
the (deterministically computed) key to the first report, and the second
call returns the identical report with the state unchanged — it is
answered from the cache without recomputing the checks. -/
theorem validateGrid_idempotent_cache (st : VState) (g : Grid)
    (ws : List WordData) (strictness : String) :
    (validateGrid st g ws strictness).2.cache.lookup
        (generateCacheKey g ws strictness)
      = some (validateGrid st g ws strictness).1 ∧
    validateGrid (validateGrid st g ws strictness).2 g ws strictness
      = ((validateGrid st g ws strictness).1,
         (validateGrid st g ws strictness).2) := by
  unfold validateGrid
  cases h : st.cache.lookup (generateCacheKey g ws strictness) with
  | some r => simp [h]
  | none => simp [h, List.lookup]

/-! ## C6 — placement atomicity -/

/-- C6: `placeWord` runs the `canPlaceWord` legality check first and, when
it fails, returns `false` with the grid state unchanged — no cell is
modified on a rejected placement.  (Quantified over rectangular grids,
the domain on which the JS cell accesses are exception-free.) -/
theorem placeWord_refuses_illegal (g : Grid) (wd : WordData) (hrect : Rect g)
    (h : (canPlaceWord g wd.word wd.startRow wd.startCol wd.direction).canPlace
          = false) :
    placeWord g wd = (false, g) := by
  unfold placeWord
  simp [h]

theorem placeWord_refuses_illegal_witness :
    Rect (buildGrid 5 5) ∧
    (canPlaceWord (buildGrid 5 5) exShortWord.word exShortWord.startRow
        exShortWord.startCol exShortWord.direction).canPlace = false ∧
    placeWord (buildGrid 5 5) exShortWord = (false, buildGrid 5 5) :=
  ⟨by decide, by decide,
   placeWord_refuses_illegal (buildGrid 5 5) exShortWord (by decide) (by decide)⟩

/-! ## C7 amended — grid score formula with the 5-per-unit symmetry bonus -/

theorem clamp_jsRound_congr {a b : Rat} (h : a = b) :
    clamp100 (jsRound a) = clamp100 (jsRound b) := by rw [h]

/-- C7 amended: the overall grid score equals 100 − 20·errors −
5·warnings + 5·(horizontal + vertical symmetry) + 10·balance (bonuses only
when the quality details are present) − 10 when the density details are
present and outside `[0.1, 0.8]`, rounded and clamped; every non-`NaN`
score is an integer in `[0, 100]`, but when the aesthetics balance is
`NaN` — which the unguarded `|diff| / (height·width)` produces on every
zero-area grid — the score is `NaN`, escaping the round/clamp chain: on
the empty grid the full validation pipeline really does return a `NaN`
score, so the claimed bounds do not hold "however pathological". -/
theorem calculateOverallScore_amended (rep : Report) :
    calculateOverallScore rep = amendedOverallScore rep ∧
    (calculateOverallScore rep = none ∨
      ∃ z, calculateOverallScore rep = some z ∧ 0 ≤ z ∧ z ≤ 100) ∧
    (computeReport [] [] "normal").score = none := by
  refine ⟨?_, ?_, rfl⟩
  · unfold calculateOverallScore amendedOverallScore
    cases hq : rep.details.quality with
    | none => rfl
    | some q =>
      dsimp only
      cases hb : q.aesthetics.balance with
      | none => rfl
      | some b =>
        dsimp only
        cases hd : rep.details.density with
        | none => dsimp only; exact congrArg _ (clamp_jsRound_congr (by ring))
        | some d =>
          dsimp only
          split_ifs with hcond
          · exact congrArg _ (clamp_jsRound_congr (by ring))
          · exact congrArg _ (clamp_jsRound_congr (by ring))
  · unfold calculateOverallScore
    cases hq : rep.details.quality with
    | none => exact .inr ⟨_, rfl, clamp100_nonneg _, clamp100_le _⟩
    | some q =>
      dsimp only
      cases hb : q.aesthetics.balance with
      | none => exact .inl rfl
      | some b =>
        exact .inr ⟨_, rfl, clamp100_nonneg _, clamp100_le _⟩

/-! ## C8 amended — word score formula including the metrics bonuses -/

/-- C8 amended: the single-word score equals 100 − 30·errors −
10·warnings, +10 for difficulty in `[0.3, 0.7]`, +5 for unique-character
share above 0.6, +10 for semantic relevance above 0.6, PLUS
`15 × metrics.crosswordFriendliness` and `10 × metrics.readabilityScore`
when the metrics record is present, rounded and clamped to `[0, 100]`. -/
theorem calculateWordScore_amended (r : WVResult) :
    calculateWordScore r = amendedWordScore r ∧
    0 ≤ calculateWordScore r ∧ calculateWordScore r ≤ 100 := by
  refine ⟨?_, clamp100_nonneg _, clamp100_le _⟩
  rcases r with ⟨e, w, c, u, m, mt⟩
  simp only [calculateWordScore, amendedWordScore]
  cases c <;> cases u <;> cases m <;> cases mt <;> dsimp only <;>
    (try split_ifs) <;> exact clamp_jsRound_congr (by ring)

/-! ## C9 amended — difficulty monotonicity at fixed cluster/combo counts -/

/-- C9 amended: for two words of the same (positive) length with equal
consonant-cluster counts and equal rare-combination counts, the word with
at least as many rare letters scores at least the difficulty of the
other.  (The unamended claim fails because the cluster and combination
terms can outweigh the rare-letter term; see the counterexample.) -/
theorem calculateWordDifficulty_mono (a b : String)
    (hlen : b.length = a.length) (hpos : 0 < a.length)
    (hcl : consonantClusterCount b = consonantClusterCount a)
    (hcombo : rareComboCount b = rareComboCount a)
    (hrare : rareCount b ≤ rareCount a) :
    calculateWordDifficulty b ≤ calculateWordDifficulty a := by
  unfold calculateWordDifficulty
  rw [hlen, hcl, hcombo]
  have h0 : a.length ≠ 0 := Nat.pos_iff_ne_zero.mp hpos
  simp only [if_neg h0]
  have hc : (0 : Rat) < a.length := by exact_mod_cast hpos
  have hdiv : (rareCount b : Rat) / a.length * (3 / 10)
      ≤ (rareCount a : Rat) / a.length * (3 / 10) := by
    apply mul_le_mul_of_nonneg_right _ (by norm_num)
    exact (div_le_div_right hc).mpr (by exact_mod_cast hrare)
  apply min_le_min _ le_rfl
  linarith

theorem calculateWordDifficulty_mono_witness :
    (("ЇААА" : String).length = ("ЇЇАА" : String).length ∧
      0 < ("ЇЇАА" : String).length ∧
      consonantClusterCount "ЇААА" = consonantClusterCount "ЇЇАА" ∧
      rareComboCount "ЇААА" = rareComboCount "ЇЇАА" ∧
      rareCount "ЇААА" ≤ rareCount "ЇЇАА") ∧
    calculateWordDifficulty "ЇААА" ≤ calculateWordDifficulty "ЇЇАА" :=
  ⟨⟨rfl, by decide, by decide, by decide, by decide⟩,
   calculateWordDifficulty_mono "ЇЇАА" "ЇААА" rfl (by decide) (by decide)
     (by decide) (by decide)⟩


/-! ## C5 — the isolation rule -/

instance {ε α : Type} [DecidableEq ε] [DecidableEq α] :
    DecidableEq (Except ε α) := fun x y =>
  match x, y with
  | .ok a, .ok b =>
    if h : a = b then isTrue (congrArg Except.ok h)
    else isFalse fun hh => h (Except.ok.inj hh)
  | .error e, .error f =>
    if h : e = f then isTrue (congrArg Except.error h)
    else isFalse fun hh => h (Except.error.inj hh)
  | .ok _, .error _ => isFalse fun hh => Except.noConfusion hh
  | .error _, .ok _ => isFalse fun hh => Except.noConfusion hh

/-- The letter loop exits early only with an out-of-bounds or blocked-cell
reason — never with `isolated`. -/
theorem canPlaceScan_error_not_isolated (g : Grid) (sr sc : Int)
    (dir : String) :
    ∀ (l : List (Nat × Char)) (conf : List PConflict)
      (ints : List PIntersection) (why : PlaceReason) (c2 : List PConflict)
      (i2 : List PIntersection),
      canPlaceScan g sr sc dir l conf ints = .error (why, c2, i2) →
      why ≠ PlaceReason.isolated := by
  intro l
  induction l with
  | nil =>
    intro conf ints why c2 i2 h
    exact absurd h (by simp [canPlaceScan])
  | cons p rest ih =>
    intro conf ints why c2 i2 h
    obtain ⟨i, ch⟩ := p
    simp only [canPlaceScan] at h
    split at h
    · injection h with h
      have hw : PlaceReason.wordOutOfBounds i = why := congrArg Prod.fst h
      rw [← hw]
      exact fun hh => PlaceReason.noConfusion hh
    · split at h
      · injection h with h
        have hw : PlaceReason.blockedCell
            (posOf sr sc dir i).1 (posOf sr sc dir i).2 = why :=
          congrArg Prod.fst h
        rw [← hw]
        exact fun hh => PlaceReason.noConfusion hh
      · exact ih _ _ _ _ _ h

/-- C5: `canPlaceWord` rejects with the `Isolated` reason exactly when the
candidate passes the length, direction, start-position, bounds, blocked,
full-duplicate and letter-conflict checks (the scan returns no conflicts
and no intersections) AND the grid already holds at least one placed word;
and when the grid holds no placed word, every candidate that passes those
same earlier checks is accepted regardless of its intersections. -/
theorem canPlaceWord_isolated_iff (g : Grid) (w : String) (sr sc : Int)
    (dir : String) (hrect : Rect g) :
    ((canPlaceWord g w sr sc dir).reason = PlaceReason.isolated ↔
      (2 ≤ w.length ∧ (dir = "horizontal" ∨ dir = "vertical") ∧
        isValidPosition g sr sc = true ∧
        canPlaceScan g sr sc dir w.data.enum [] [] = .ok ([], []) ∧
        hasWordsOnGrid g = true)) ∧
    (∀ conf ints,
      2 ≤ w.length → (dir = "horizontal" ∨ dir = "vertical") →
      isValidPosition g sr sc = true →
      canPlaceScan g sr sc dir w.data.enum [] [] = .ok (conf, ints) →
      conf = [] → ints.length ≠ w.length → hasWordsOnGrid g = false →
      (canPlaceWord g w sr sc dir).canPlace = true) := by
  constructor
  · unfold canPlaceWord
    by_cases h1 : w.length < 2
    · simp only [if_pos h1]
      constructor
      · intro hh; exact absurd hh (by simp)
      · rintro ⟨hle, -⟩; omega
    · simp only [if_neg h1]
      by_cases h2 : dir = "horizontal" ∨ dir = "vertical"
      · simp only [if_neg (not_not_intro h2)]
        cases hv : isValidPosition g sr sc with
        | false =>
          simp only [hv, if_pos rfl]
          constructor
          · intro hh; exact absurd hh (by simp)
          · rintro ⟨-, -, hvv, -⟩; exact Bool.noConfusion hvv
        | true =>
          simp only [hv]
          rw [if_neg (by simp)]
          cases hscan : canPlaceScan g sr sc dir w.data.enum [] [] with
          | error e =>
            obtain ⟨why, c2, i2⟩ := e
            dsimp only
            constructor
            · intro hh
              exact absurd hh
                (canPlaceScan_error_not_isolated g sr sc dir _ _ _ _ _ _ hscan)
            · rintro ⟨-, -, -, hok, -⟩
              exact Except.noConfusion hok
          | ok p =>
            obtain ⟨conf, ints⟩ := p
            dsimp only
            by_cases hfull : ints.length = w.length
            · simp only [if_pos hfull]
              constructor
              · intro hh; exact absurd hh (by simp)
              · rintro ⟨hle, -, -, hok, -⟩
                injection hok with hok
                have hi : ints = [] := congrArg Prod.snd hok
                rw [hi] at hfull
                simp at hfull
                omega
            · simp only [if_neg hfull]
              by_cases hconf : 0 < conf.length
              · simp only [if_pos hconf]
                constructor
                · intro hh; exact absurd hh (by simp)
                · rintro ⟨-, -, -, hok, -⟩
                  injection hok with hok
                  have hc : conf = [] := congrArg Prod.fst hok
                  rw [hc] at hconf
                  simp at hconf
              · simp only [if_neg hconf]
                have hcnil : conf = [] := by
                  rcases conf with - | ⟨a, as⟩
                  · rfl
                  · exact absurd (by simp) hconf
                by_cases hiso : hasWordsOnGrid g = true ∧ ints.length = 0
                · rw [if_pos hiso]
                  constructor
                  · intro _
                    have hinil : ints = [] := by
                      rcases ints with - | ⟨a, as⟩
                      · rfl
                      · exact absurd hiso.2 (by simp)
                    refine ⟨by omega, h2, by trivial, ?_, hiso.1⟩
                    rw [hcnil, hinil]
                  · intro _; rfl
                · rw [if_neg hiso]
                  constructor
                  · intro hh; exact absurd hh (by simp)
                  · rintro ⟨-, -, -, hok, hw⟩
                    injection hok with hok
                    have hi : ints = [] := congrArg Prod.snd hok
                    exact absurd ⟨hw, by rw [hi]; rfl⟩ hiso
      · rw [if_pos h2]
        constructor
        · intro hh; exact absurd hh (by simp)
        · rintro ⟨-, hdir, -⟩; exact absurd hdir h2
  · intro conf ints hle hdir hv hscan hcnil hfull hnw
    unfold canPlaceWord
    rw [if_neg (by omega), if_neg (not_not_intro hdir),
        if_neg (by simp [hv]), hscan]
    dsimp only
    rw [if_neg hfull, if_neg (by simp [hcnil]), if_neg (by simp [hnw])]

theorem canPlaceWord_isolated_iff_witness :
    Rect exGrid1 ∧
    (canPlaceWord exGrid1 "DOG" 0 0 "horizontal").reason =
      PlaceReason.isolated :=
  ⟨by decide,
   ((canPlaceWord_isolated_iff exGrid1 "DOG" 0 0 "horizontal"
      (by decide)).1).mpr (by decide)⟩


/-! ## C10 — autoPlaceWords reorders the caller's array -/

theorem insertDescBy_perm {α : Type} (wt : α → Nat) (x : α) (l : List α) :
    (insertDescBy wt x l).Perm (x :: l) := by
  induction l with
  | nil => exact List.Perm.refl _
  | cons y ys ih =>
    unfold insertDescBy
    split
    · exact List.Perm.refl _
    · exact ((ih.cons y).trans (List.Perm.swap x y ys))

theorem sortDescBy_perm {α : Type} (wt : α → Nat) (l : List α) :
    (sortDescBy wt l).Perm l := by
  induction l with
  | nil => exact List.Perm.refl _
  | cons x xs ih =>
    unfold sortDescBy
    exact (insertDescBy_perm wt x _).trans (ih.cons x)

theorem mem_insertDescBy {α : Type} (wt : α → Nat) (x a : α) (l : List α)
    (h : a ∈ insertDescBy wt x l) : a = x ∨ a ∈ l :=
  List.mem_cons.mp ((insertDescBy_perm wt x l).mem_iff.mp h)

theorem insertDescBy_pairwise {α : Type} (wt : α → Nat) (x : α) (l : List α)
    (hl : l.Pairwise (fun a b => wt b ≤ wt a)) :
    (insertDescBy wt x l).Pairwise (fun a b => wt b ≤ wt a) := by
  induction l with
  | nil => simp [insertDescBy]
  | cons y ys ih =>
    unfold insertDescBy
    by_cases hxy : wt y ≤ wt x
    · rw [if_pos hxy]
      refine List.Pairwise.cons ?_ hl
      intro b hb
      rcases List.mem_cons.mp hb with hb | hb
      · subst hb; exact hxy
      · exact le_trans ((List.pairwise_cons.mp hl).1 b hb) hxy
    · rw [if_neg hxy]
      refine List.Pairwise.cons ?_ (ih (List.pairwise_cons.mp hl).2)
      intro b hb
      rcases mem_insertDescBy wt x b _ hb with hb | hb
      · subst hb; omega
      · exact (List.pairwise_cons.mp hl).1 b hb

theorem sortDescBy_pairwise {α : Type} (wt : α → Nat) (l : List α) :
    (sortDescBy wt l).Pairwise (fun a b => wt b ≤ wt a) := by
  induction l with
  | nil => simp [sortDescBy]
  | cons x xs ih => exact insertDescBy_pairwise wt x _ ih

/-- The identity-relevant projection of a word: its id and text, which the
auto-placement loop never rewrites (it only overwrites anchors). -/
def wordKey (w : WordData) : String × String := (w.id, w.word)

/-- C10: after `autoPlaceWords`, the caller's words array (the second
component of the result, modelling the array object that was sorted in
place) holds exactly the words that were passed in — placed or not — as a
permutation sorted by descending word length.  The hypothesis `0 < g.length`
keeps to the domain where the JS source does not throw
(`grid[0].length` is read whenever the list is nonempty). -/
theorem autoPlaceWords_sorts_in_place (g : Grid) (ws : List WordData)
    (h : 0 < g.length) :
    ((autoPlaceWords g ws).2.1.map wordKey).Perm (ws.map wordKey) ∧
    (autoPlaceWords g ws).2.1.Pairwise
      (fun a b => b.word.length ≤ a.word.length) := by
  have hperm : (sortDescLen ws).Perm ws := sortDescBy_perm _ ws
  have hsorted : (sortDescLen ws).Pairwise
      (fun a b => b.word.length ≤ a.word.length) := sortDescBy_pairwise _ ws
  unfold autoPlaceWords
  cases hs : sortDescLen ws with
  | nil =>
    rw [hs] at hperm
    constructor
    · exact (hperm.map wordKey)
    · simp
  | cons first rest =>
    rw [hs] at hperm hsorted
    dsimp only
    constructor
    · refine List.Perm.trans (List.Perm.of_eq ?_) (hperm.map wordKey)
      simp [wordKey]
    · rcases List.pairwise_cons.mp hsorted with ⟨hhead, htail⟩
      exact List.Pairwise.cons (fun b hb => hhead b hb) htail

theorem autoPlaceWords_sorts_in_place_witness :
    0 < (buildGrid 5 5).length ∧
    (((autoPlaceWords (buildGrid 5 5) [exWordA, exWordB]).2.1.map
        wordKey).Perm ([exWordA, exWordB].map wordKey) ∧
      (autoPlaceWords (buildGrid 5 5) [exWordA, exWordB]).2.1.Pairwise
        (fun a b => b.word.length ≤ a.word.length)) :=
  ⟨by decide,
   autoPlaceWords_sorts_in_place (buildGrid 5 5) [exWordA, exWordB] (by decide)⟩


/-! ## C3 amended — what the cache key does and does not reflect -/

/-- The cell fields `hashGrid` reads: letter, blocked flag, number.
The cell's `wordIds` and `directions` — which the placement, intersection,
integrity and isolation checks inspect — are NOT hashed. -/
def cellHashProj (c : Cell) : Option Char × Bool × Option Int :=
  (c.letter, c.blocked, c.number)

/-- The word fields `hashWords` reads: id (for the sort), text, direction
and anchor.  The word's clue, number and difficulty — which the word and
integrity checks inspect — are NOT hashed. -/
def wordHashProj (w : WordData) : String × String × String × Int × Int :=
  (w.id, w.word, w.direction, w.startRow, w.startCol)

theorem map_congr_of_proj {α β γ : Type} (p : α → γ) (f : α → β)
    (hf : ∀ a b, p a = p b → f a = f b) :
    ∀ l1 l2 : List α, l1.map p = l2.map p → l1.map f = l2.map f := by
  intro l1
  induction l1 with
  | nil =>
    intro l2 h
    cases l2 with
    | nil => rfl
    | cons b bs => simp at h
  | cons a as ih =>
    intro l2 h
    cases l2 with
    | nil => simp at h
    | cons b bs =>
      simp only [List.map_cons, List.cons.injEq] at h ⊢
      exact ⟨hf a b h.1, ih bs h.2⟩

theorem hashCellString_proj (c1 c2 : Cell)
    (h : cellHashProj c1 = cellHashProj c2) :
    hashCellString c1 = hashCellString c2 := by
  have h1 : c1.letter = c2.letter := congrArg Prod.fst h
  have h2 : c1.blocked = c2.blocked := congrArg (fun p => p.2.1) h
  have h3 : c1.number = c2.number := congrArg (fun p => p.2.2) h
  unfold hashCellString
  rw [h1, h2, h3]

theorem hashGrid_proj (g1 g2 : Grid)
    (hg : g1.map (fun row => row.map cellHashProj)
        = g2.map (fun row => row.map cellHashProj)) :
    hashGrid g1 = hashGrid g2 := by
  unfold hashGrid
  have := map_congr_of_proj (List.map cellHashProj)
    (fun row => String.join (row.map hashCellString))
    (fun r1 r2 hr => by
      have := map_congr_of_proj cellHashProj hashCellString
        hashCellString_proj r1 r2 hr
      dsimp only
      rw [this])
    g1 g2 hg
  rw [this]

/-- The word fragment joined into the words hash. -/
def wordHashFrag (w : WordData) : String :=
  w.word ++ "-" ++ w.direction ++ "-" ++ toString w.startRow ++ "-"
    ++ toString w.startCol

theorem wordHashFrag_proj (w1 w2 : WordData)
    (h : wordHashProj w1 = wordHashProj w2) :
    wordHashFrag w1 = wordHashFrag w2 := by
  have h2 : w1.word = w2.word := congrArg (fun p => p.2.1) h
  have h3 : w1.direction = w2.direction := congrArg (fun p => p.2.2.1) h
  have h4 : w1.startRow = w2.startRow := congrArg (fun p => p.2.2.2.1) h
  have h5 : w1.startCol = w2.startCol := congrArg (fun p => p.2.2.2.2) h
  unfold wordHashFrag
  rw [h2, h3, h4, h5]

theorem insertByIdAsc_proj (x1 x2 : WordData)
    (hx : wordHashProj x1 = wordHashProj x2) :
    ∀ l1 l2 : List WordData,
      l1.map wordHashProj = l2.map wordHashProj →
      (insertByIdAsc x1 l1).map wordHashProj
        = (insertByIdAsc x2 l2).map wordHashProj := by
  have hid : x1.id = x2.id := congrArg Prod.fst hx
  intro l1
  induction l1 with
  | nil =>
    intro l2 h
    cases l2 with
    | nil => simp [insertByIdAsc, hx]
    | cons b bs => simp at h
  | cons y1 ys1 ih =>
    intro l2 h
    cases l2 with
    | nil => simp at h
    | cons y2 ys2 =>
      simp only [List.map_cons, List.cons.injEq] at h
      have hyid : y1.id = y2.id := congrArg Prod.fst h.1
      unfold insertByIdAsc
      by_cases hlt : x1.id < y1.id
      · rw [if_pos hlt, if_pos (by rw [← hid, ← hyid]; exact hlt)]
        simp only [List.map_cons, List.cons.injEq]
        exact ⟨hx, h.1, h.2⟩
      · rw [if_neg hlt, if_neg (by rw [← hid, ← hyid]; exact hlt)]
        simp only [List.map_cons, List.cons.injEq]
        exact ⟨h.1, ih ys2 h.2⟩

theorem sortById_proj :
    ∀ l1 l2 : List WordData,
      l1.map wordHashProj = l2.map wordHashProj →
      (sortById l1).map wordHashProj = (sortById l2).map wordHashProj := by
  intro l1
  induction l1 with
  | nil =>
    intro l2 h
    cases l2 with
    | nil => rfl
    | cons b bs => simp at h
  | cons a as ih =>
    intro l2 h
    cases l2 with
    | nil => simp at h
    | cons b bs =>
      simp only [List.map_cons, List.cons.injEq] at h
      unfold sortById
      exact insertByIdAsc_proj a b h.1 _ _ (ih bs h.2)

theorem hashWords_proj (ws1 ws2 : List WordData)
    (hw : ws1.map wordHashProj = ws2.map wordHashProj) :
    hashWords ws1 = hashWords ws2 := by
  unfold hashWords
  have hs := sortById_proj ws1 ws2 hw
  have := map_congr_of_proj wordHashProj wordHashFrag wordHashFrag_proj
    (sortById ws1) (sortById ws2) hs
  have hfrag : ∀ l : List WordData, l.map (fun w =>
      w.word ++ "-" ++ w.direction ++ "-" ++ toString w.startRow ++ "-"
        ++ toString w.startCol) = l.map wordHashFrag := by
    intro l; rfl
  rw [hfrag, hfrag, this]

/-- C3 amended: `generateCacheKey` reflects only each cell's letter,
blocked flag and number, each word's id, text, direction and anchor, and
the strictness — any two inputs agreeing on those projections receive the
same key, even when they differ in the fields the checks also inspect
(cell `wordIds`/`directions`, word clue/number/difficulty, grid row
boundaries).  Together with the counterexample this shows a key match
does not guarantee an equal report, so cached reports can be stale. -/
theorem generateCacheKey_ignores_unhashed_fields (g1 g2 : Grid)
    (ws1 ws2 : List WordData) (strictness : String)
    (hg : g1.map (fun row => row.map cellHashProj)
        = g2.map (fun row => row.map cellHashProj))
    (hw : ws1.map wordHashProj = ws2.map wordHashProj) :
    generateCacheKey g1 ws1 strictness = generateCacheKey g2 ws2 strictness := by
  unfold generateCacheKey
  rw [hashGrid_proj g1 g2 hg, hashWords_proj ws1 ws2 hw]

theorem generateCacheKey_ignores_unhashed_fields_witness :
    (exGridKeyA.map (fun row => row.map cellHashProj)
        = exGridKeyB.map (fun row => row.map cellHashProj) ∧
      exGridKeyA ≠ exGridKeyB) ∧
    generateCacheKey exGridKeyA [] "normal"
      = generateCacheKey exGridKeyB [] "normal" :=
  ⟨⟨by decide, by decide⟩,
   generateCacheKey_ignores_unhashed_fields exGridKeyA exGridKeyB [] []
     "normal" (by decide) rfl⟩


/-! ## C1 amended — round-trip on previously empty cells with a fresh id -/

theorem listModify_length {α : Type} (l : List α) (n : Nat) (f : α → α) :
    (listModify l n f).length = l.length := by
  induction l generalizing n with
  | nil => rfl
  | cons a as ih =>
    cases n with
    | zero => rfl
    | succ m => simp [listModify, ih]

theorem listModify_get? {α : Type} (l : List α) (n : Nat) (f : α → α)
    (m : Nat) :
    (listModify l n f).get? m
      = if m = n then (l.get? m).map f else l.get? m := by
  induction l generalizing n m with
  | nil => simp [listModify]
  | cons a as ih =>
    cases n with
    | zero =>
      cases m with
      | zero => simp [listModify]
      | succ k => simp [listModify]
    | succ j =>
      cases m with
      | zero => simp [listModify]
      | succ k => simpa [listModify] using ih j k

theorem gridModify_length (g : Grid) (r c : Int) (f : Cell → Cell) :
    (gridModify g r c f).length = g.length := by
  unfold gridModify
  split
  · rfl
  · exact listModify_length _ _ _

theorem cellGet_natCast (g : Grid) (r c : Nat) :
    cellGet g r c = cellGetN g r c := by
  unfold cellGet
  rw [if_neg (by rintro (h | h) <;> omega)]
  simp

theorem cellGetN_listGridModify (g : Grid) (rn cn : Nat) (f : Cell → Cell)
    (r c : Nat) :
    cellGetN (listModify g rn (fun row => listModify row cn f)) r c
      = if r = rn ∧ c = cn then (cellGetN g r c).map f else cellGetN g r c := by
  unfold cellGetN
  rw [listModify_get?]
  by_cases hr : r = rn
  · rw [if_pos hr]
    cases hg : g.get? r with
    | none =>
      show (Option.none.map (fun row => listModify row cn f)).bind
          (fun row => row.get? c) = _
      show (Option.none : Option (List Cell)).bind (fun row => row.get? c)
          = if r = rn ∧ c = cn then Option.none.map f else Option.none
      split <;> rfl
    | some row =>
      show (listModify row cn f).get? c
          = if r = rn ∧ c = cn then (row.get? c).map f else row.get? c
      rw [listModify_get?]
      by_cases hc : c = cn
      · rw [if_pos hc, if_pos ⟨hr, hc⟩]
      · rw [if_neg hc, if_neg (fun hh => hc hh.2)]
  · rw [if_neg hr, if_neg (fun hh => hr hh.1)]

theorem cellGet_gridModify (g : Grid) (r0 c0 : Int) (f : Cell → Cell)
    (r c : Int) :
    cellGet (gridModify g r0 c0 f) r c =
      if r = r0 ∧ c = c0 ∧ 0 ≤ r0 ∧ 0 ≤ c0 then (cellGet g r c).map f
      else cellGet g r c := by
  by_cases h1 : r0 < 0 ∨ c0 < 0
  · have hmod : gridModify g r0 c0 f = g := by
      unfold gridModify; rw [if_pos h1]
    rw [hmod, if_neg (by intro hcon; omega)]
  · have hmod : gridModify g r0 c0 f
        = listModify g r0.toNat fun row => listModify row c0.toNat f := by
      unfold gridModify; rw [if_neg h1]
    by_cases h2 : r < 0 ∨ c < 0
    · have hnone : ∀ G : Grid, cellGet G r c = none := by
        intro G; unfold cellGet; rw [if_pos h2]
      simp only [hnone]
      split <;> rfl
    · have hcg : ∀ G : Grid, cellGet G r c = cellGetN G r.toNat c.toNat := by
        intro G; unfold cellGet; rw [if_neg h2]
      simp only [hcg]
      rw [hmod, cellGetN_listGridModify]
      push_neg at h1 h2
      by_cases h3 : r.toNat = r0.toNat ∧ c.toNat = c0.toNat
      · rw [if_pos h3, if_pos ⟨by omega, by omega, h1.1, h1.2⟩]
      · rw [if_neg h3, if_neg (by intro hcon; omega)]

theorem placeCells_length (wd : WordData) (l : List (Nat × Char)) (g : Grid) :
    (placeCells wd g l).length = g.length := by
  induction l generalizing g with
  | nil => rfl
  | cons p rest ih =>
    obtain ⟨i, ch⟩ := p
    rw [placeCells, ih, gridModify_length]

theorem cellGet_placeCells_untouched (wd : WordData)
    (l : List (Nat × Char)) (g : Grid) (r c : Int)
    (h : ∀ p ∈ l, posOf wd.startRow wd.startCol wd.direction p.1 ≠ (r, c)) :
    cellGet (placeCells wd g l) r c = cellGet g r c := by
  induction l generalizing g with
  | nil => rfl
  | cons p rest ih =>
    obtain ⟨i, ch⟩ := p
    rw [placeCells, ih _ (fun q hq => h q (List.mem_cons_of_mem _ hq)),
        cellGet_gridModify, if_neg]
    rintro ⟨h1, h2, -, -⟩
    exact h (i, ch) (List.mem_cons_self _ _) (Prod.ext h1.symm h2.symm)

theorem posOf_inj (sr sc : Int) (dir : String)
    (hdir : dir = "horizontal" ∨ dir = "vertical") (a b : Nat)
    (h : posOf sr sc dir a = posOf sr sc dir b) : a = b := by
  rcases hdir with hd | hd <;> subst hd <;> simp [posOf] at h <;> omega

theorem cellGet_placeCells_touched (wd : WordData) (l : List (Nat × Char))
    (g : Grid) (i : Nat) (ch : Char)
    (hmem : (i, ch) ∈ l)
    (hnodup : (l.map Prod.fst).Nodup)
    (huniq : ∀ p ∈ l,
      posOf wd.startRow wd.startCol wd.direction p.1
        = posOf wd.startRow wd.startCol wd.direction i → p.1 = i)
    (hij : ∀ p ∈ l, p.1 = i → p.2 = ch)
    (hnn : 0 ≤ (posOf wd.startRow wd.startCol wd.direction i).1 ∧
           0 ≤ (posOf wd.startRow wd.startCol wd.direction i).2) :
    cellGet (placeCells wd g l)
        (posOf wd.startRow wd.startCol wd.direction i).1
        (posOf wd.startRow wd.startCol wd.direction i).2
      = (cellGet g (posOf wd.startRow wd.startCol wd.direction i).1
          (posOf wd.startRow wd.startCol wd.direction i).2).map
          (placeCellStep wd i ch) := by
  induction l generalizing g with
  | nil => cases hmem
  | cons p rest ih =>
    obtain ⟨j, ch2⟩ := p
    have hnd : (∀ x : Char, (j, x) ∉ rest) ∧ (rest.map Prod.fst).Nodup := by
      simpa using hnodup
    by_cases hji : j = i
    · subst hji
      have hch : ch2 = ch := hij (j, ch2) (List.mem_cons_self _ _) rfl
      subst hch
      rw [placeCells, cellGet_placeCells_untouched wd rest _ _ _ ?hunt]
      case hunt =>
        intro q hq heq
        have hq1 : q.1 = j := huniq q (List.mem_cons_of_mem _ hq)
          (by rw [heq, Prod.mk.eta])
        exact hnd.1 q.2 (by rw [← hq1, Prod.mk.eta]; exact hq)
      rw [cellGet_gridModify, if_pos ⟨rfl, rfl, hnn.1, hnn.2⟩]
    · have hmem2 : (i, ch) ∈ rest := by
        rcases List.mem_cons.mp hmem with h | h
        · exact absurd (congrArg Prod.fst h).symm hji
        · exact h
      rw [placeCells,
          ih _ hmem2 hnd.2
            (fun q hq => huniq q (List.mem_cons_of_mem _ hq))
            (fun q hq => hij q (List.mem_cons_of_mem _ hq)),
          cellGet_gridModify, if_neg]
      rintro ⟨h1, h2, -, -⟩
      exact hji (huniq (j, ch2) (List.mem_cons_self _ _)
        (Prod.ext h1.symm h2.symm))

theorem removeCellWord_not_mem (wid : String) (cell : Cell)
    (h : wid ∉ cell.wordIds) : removeCellWord wid cell = cell := by
  unfold removeCellWord
  rw [if_neg]
  intro hc
  exact h (List.mem_of_elem_eq_true hc)

theorem removeCellWord_place_empty (wd : WordData) (i : Nat) (ch : Char) :
    removeCellWord wd.id (placeCellStep wd i ch emptyCell) = emptyCell := by
  unfold placeCellStep removeCellWord emptyCell
  simp

theorem grid_ext (G H : Grid) (hlen : G.length = H.length)
    (hcell : ∀ r c, cellGetN G r c = cellGetN H r c) : G = H := by
  apply List.ext_get?_iff.mpr
  intro r
  cases hG : G.get? r with
  | none =>
    have h1 : G.length ≤ r := List.get?_eq_none.mp hG
    rw [hlen] at h1
    rw [List.get?_eq_none.mpr h1]
  | some row1 =>
    cases hH : H.get? r with
    | none =>
      have h1 : H.length ≤ r := List.get?_eq_none.mp hH
      rw [← hlen] at h1
      rw [List.get?_eq_none.mpr h1] at hG
      cases hG
    | some row2 =>
      have hrow : row1 = row2 := by
        apply List.ext_get?_iff.mpr
        intro c
        have := hcell r c
        unfold cellGetN at this
        rw [hG, hH] at this
        simpa using this
      rw [hrow]

theorem canPlace_true_dir (g : Grid) (w : String) (sr sc : Int)
    (dir : String)
    (h : (canPlaceWord g w sr sc dir).canPlace = true) :
    dir = "horizontal" ∨ dir = "vertical" := by
  by_contra hd
  unfold canPlaceWord at h
  by_cases h1 : w.length < 2
  · rw [if_pos h1] at h
    exact absurd h (by simp)
  · rw [if_neg h1, if_pos hd] at h
    exact absurd h (by simp)

/-- C1 amended: placing a word whose cells are all in the pristine empty
state, with an id not yet present anywhere on the grid, and then removing
that id restores the grid exactly.  (The unamended claim fails whenever
the accepted word crosses existing words: `removeWord` does not take the
removed word's direction, number or start/end flags off shared cells —
see the counterexample.) -/
theorem placeWord_removeWord_roundtrip (g : Grid) (wd : WordData)
    (hcan : (canPlaceWord g wd.word wd.startRow wd.startCol
        wd.direction).canPlace = true)
    (hfresh : g.all
        (fun row => row.all fun cell => !cell.wordIds.contains wd.id) = true)
    (hpristine : ∀ p ∈ wd.word.data.enum,
      cellGet g (posOf wd.startRow wd.startCol wd.direction p.1).1
        (posOf wd.startRow wd.startCol wd.direction p.1).2
        = some emptyCell) :
    (removeWord (placeWord g wd).2 wd.id).2 = g := by
  have hdir := canPlace_true_dir g wd.word wd.startRow wd.startCol
    wd.direction hcan
  have hplace : (placeWord g wd).2 = placeCells wd g wd.word.data.enum := by
    unfold placeWord
    rw [if_pos hcan]
  rw [hplace]
  unfold removeWord
  dsimp only
  have hmap : ∀ (G : Grid) (r c : Nat),
      cellGetN (G.map fun row => row.map (removeCellWord wd.id)) r c
        = (cellGetN G r c).map (removeCellWord wd.id) := by
    intro G r c
    unfold cellGetN
    rw [List.get?_map]
    cases G.get? r <;> simp [List.get?_map]
  apply grid_ext
  · rw [List.length_map, placeCells_length]
  · intro r c
    rw [hmap]
    by_cases htouch : ∃ p ∈ wd.word.data.enum,
        posOf wd.startRow wd.startCol wd.direction p.1 = ((r : Int), (c : Int))
    · obtain ⟨⟨i, ch⟩, hmem, hpos⟩ := htouch
      have hij : ∀ p ∈ wd.word.data.enum, p.1 = i → p.2 = ch := by
        intro p hp he
        have hpi := List.mem_enum_iff_get?.mp hp
        have hii := List.mem_enum_iff_get?.mp hmem
        rw [he] at hpi
        rw [hpi] at hii
        exact Option.some.inj hii
      have hget := cellGet_placeCells_touched wd wd.word.data.enum g i ch
        hmem (List.nodup_enum_map_fst _)
        (fun p hp he => posOf_inj _ _ _ hdir p.1 i he)
        hij
        ⟨by rw [hpos]; exact Int.natCast_nonneg r,
         by rw [hpos]; exact Int.natCast_nonneg c⟩
      rw [hpos] at hget
      rw [cellGet_natCast, cellGet_natCast] at hget
      rw [hget]
      have hemp := hpristine (i, ch) hmem
      rw [hpos, cellGet_natCast] at hemp
      rw [hemp]
      show some (removeCellWord wd.id (placeCellStep wd i ch emptyCell))
          = some emptyCell
      rw [removeCellWord_place_empty]
    · push_neg at htouch
      have hunt := cellGet_placeCells_untouched wd wd.word.data.enum g
        (r : Int) (c : Int) htouch
      rw [cellGet_natCast, cellGet_natCast] at hunt
      rw [hunt]
      cases hg : cellGetN g r c with
      | none => rfl
      | some cell =>
        show some (removeCellWord wd.id cell) = some cell
        have hrow : ∃ row, g.get? r = some row ∧ row.get? c = some cell := by
          unfold cellGetN at hg
          cases hgr : g.get? r with
          | none => rw [hgr] at hg; cases hg
          | some row =>
            rw [hgr] at hg
            exact ⟨row, rfl, by simpa using hg⟩
        obtain ⟨row, hr1, hr2⟩ := hrow
        have hrowmem : row ∈ g := List.get?_mem hr1
        have hcellmem : cell ∈ row := List.get?_mem hr2
        have hnotin : wd.id ∉ cell.wordIds := by
          have h1 := (List.all_eq_true.mp hfresh) row hrowmem
          have h2 := (List.all_eq_true.mp h1) cell hcellmem
          intro hmm
          have hcontains : cell.wordIds.contains wd.id = true :=
            List.elem_eq_true_of_mem hmm
          rw [hcontains] at h2
          simp at h2
        rw [removeCellWord_not_mem wd.id cell hnotin]

theorem placeWord_removeWord_roundtrip_witness :
    ((canPlaceWord (buildGrid 5 5) exWordA.word exWordA.startRow
        exWordA.startCol exWordA.direction).canPlace = true ∧
      (buildGrid 5 5).all
        (fun row => row.all fun cell =>
          !cell.wordIds.contains exWordA.id) = true ∧
      ∀ p ∈ exWordA.word.data.enum,
        cellGet (buildGrid 5 5)
          (posOf exWordA.startRow exWordA.startCol exWordA.direction p.1).1
          (posOf exWordA.startRow exWordA.startCol exWordA.direction p.1).2
          = some emptyCell) ∧
    (removeWord (placeWord (buildGrid 5 5) exWordA).2 exWordA.id).2
      = buildGrid 5 5 :=
  ⟨⟨by decide, by decide, by decide⟩,
   placeWord_removeWord_roundtrip (buildGrid 5 5) exWordA (by decide)
     (by decide) (by decide)⟩

end Crosswords
